import Mathlib

/-!
# Sentry Prometheus exporter: snapshot assembly, cache and metric projection

A shallow embedding of `collector/prometheus.go`, `collector/utils.go` and the
parts of `sentry/sentry.go` they call.

Modelling conventions.

* A Go `interface{}` is a `Val`.  The first six constructors are what
  `encoding/json` decodes into; the remaining ones are the statically typed Go
  values the builder stores in the snapshot before it is serialised.  A type
  assertion succeeds only on the constructor of the asserted Go type.
* A Go `map[string]T` is an association list with unique keys kept by `mapSet`;
  indexing a missing key yields the zero value.
* A `float64` is an exact rational, which covers the finite values.  Go `int`
  and `int64` are 64 bits wide: the conversion `int(v)` truncates toward zero
  and, when the result does not fit, yields the smallest `int64`, as the amd64
  instruction does (the language leaves that result to the implementation);
  integer addition wraps; the conversion `float64(n)` rounds to a significand
  of 53 bits.  The clock and the expiry time written from it are integers that
  are not wrapped.
* The HTTP transport with JSON decoding is an oracle (`SentryAPI`), one function
  per endpoint, `none` standing for a returned error.
* `strconv.ParseFloat` and `fmt.Sprintf "%v"` are library functions, taken as
  parameters (`GoLib`).
* A computation that may panic or return early from `Collect` is an `Exec`.
-/

namespace SentryExporter

set_option maxRecDepth 8192

/-! ## Data model -/

/-- Sentry organization record, `sentry.Organization` with its nested `Status`. -/
structure Organization where
  ID : String
  Slug : String
  Name : String
  StatusID : String
  StatusName : String

/-- Sentry project record, `sentry.Project`. -/
structure Project where
  ID : String
  Slug : String
  Name : String
  Status : String
  Platform : String
deriving DecidableEq

/-- Dynamic Go value held in the snapshot map. -/
inductive Val where
  | null
  | bool (b : Bool)
  | num (x : ℚ)
  | str (s : String)
  | arr (xs : List Val)
  | obj (kvs : List (String × Val))
  | int64 (n : Int)
  | orgPtr (o : Organization)
  | projectPtr (p : Project)
  | projectSlice (ps : List Project)
  | stringSlice (ss : List String)
  | issueData (t : List (String × List (String × List (String × List Val))))

/-- Go type `map[string][]interface{}`: window name to issue list. -/
abbrev WindowMap := List (String × List Val)

/-- Go type `map[string]map[string][]interface{}`: environment to windows. -/
abbrev EnvMap := List (String × WindowMap)

/-- Go type `map[string]map[string]map[string][]interface{}`, the local
`projectsIssueData` of the builder. -/
abbrev IssueTree := List (String × EnvMap)

/-- Go type `map[string]interface{}`. -/
abbrev Data := List (String × Val)

/-- Map read with presence flag, `v, ok := m[k]`. -/
def mapGet? {α : Type} : List (String × α) → String → Option α
  | [], _ => none
  | (k', v) :: rest, k => if k' = k then some v else mapGet? rest k

/-- Map write `m[k] = v`: replaces the entry of `k` or adds one. -/
def mapSet {α : Type} : List (String × α) → String → α → List (String × α)
  | [], k, v => [(k, v)]
  | (k', v') :: rest, k, v =>
    if k' = k then (k, v) :: rest else (k', v') :: mapSet rest k v

/-- Map read `m[k]` on `map[string]interface{}`: nil when the key is missing. -/
def mapIndex (m : Data) (k : String) : Val :=
  (mapGet? m k).getD Val.null

/-- Outcome of a block of `Collect`. -/
inductive Exec (α : Type) where
  | ok (a : α)
  | ret
  | panic

/-- Sequencing: a panic or an early return skips the rest. -/
def Exec.bind {α β : Type} : Exec α → (α → Exec β) → Exec β
  | .ok a, f => f a
  | .ret, _ => .ret
  | .panic, _ => .panic

instance : Monad Exec where
  pure := Exec.ok
  bind := Exec.bind

/-- Type assertion `v.(map[string]interface{})`, panicking form. -/
def asMap : Val → Exec Data
  | .obj kvs => .ok kvs
  | _ => .panic

/-- Type assertion `v.([]interface{})`, panicking form. -/
def asSlice : Val → Exec (List Val)
  | .arr xs => .ok xs
  | _ => .panic

/-- Type assertion `v.(string)`, panicking form. -/
def asString : Val → Exec String
  | .str s => .ok s
  | _ => .panic

/-- Type assertion `v.([]string)`, panicking form. -/
def asStringSlice : Val → Exec (List String)
  | .stringSlice ss => .ok ss
  | _ => .panic

/-- Integer part of a rational, the fraction discarded (truncation toward zero). -/
def truncate (q : ℚ) : Int := Int.tdiv q.num q.den

/-- Smallest value of `int64`. -/
def minInt64 : Int := -9223372036854775808

/-- Largest value of `int64`. -/
def maxInt64 : Int := 9223372036854775807

/-- The integer fits `int64` (and `int`, which is as wide). -/
def IsInt64 (n : Int) : Prop := minInt64 ≤ n ∧ n ≤ maxInt64

instance (n : Int) : Decidable (IsInt64 n) :=
  inferInstanceAs (Decidable (minInt64 ≤ n ∧ n ≤ maxInt64))

/-- Result of a 64-bit integer operation whose exact value is `n`: the value
modulo `2 ^ 64` in the range of `int64`. -/
def wrapInt64 (n : Int) : Int := (n + 2 ^ 63) % 2 ^ 64 - 2 ^ 63

/-- Conversion `int(v)` or `int64(v)` of a `float64`: the integer part when it
fits, the smallest `int64` otherwise. -/
def toInt64 (q : ℚ) : Int :=
  if IsInt64 (truncate q) then truncate q else minInt64

/-- Number of halvings, `fuel` at most, that bring `m` below `2 ^ 53`. -/
def excessBits : Nat → Nat → Nat
  | 0, _ => 0
  | fuel + 1, m => if m < 2 ^ 53 then 0 else excessBits fuel (m / 2) + 1

/-- Nearest natural number with a significand of 53 bits, a tie going to the
even significand; `m` is at most `2 ^ 63`. -/
def roundNat53 (m : Nat) : Nat :=
  if m < 2 ^ 53 then m
  else
    let e := excessBits 11 m
    let q := m / 2 ^ e
    let r := m % 2 ^ e
    if 2 * r < 2 ^ e then q * 2 ^ e
    else if 2 * r = 2 ^ e ∧ q % 2 = 0 then q * 2 ^ e
    else (q + 1) * 2 ^ e

/-- Conversion `float64(n)` of a 64-bit integer. -/
def toFloat64 (n : Int) : ℚ :=
  if n.natAbs < 2 ^ 53 then (n : ℚ)
  else ((Int.sign n * (roundNat53 n.natAbs : Int) : Int) : ℚ)

/-- Go standard library functions used by the collector. -/
structure GoLib where
  /-- Function `strconv.ParseFloat(s, 64)`; `none` is a returned error. -/
  ParseFloat : String → Option ℚ
  /-- Function `fmt.Sprintf("%v", v)`. -/
  Sprintv : Val → String

/-! ## Remote API (`sentry/sentry.go`) -/

/-- Transport oracle: what `Get` followed by JSON decoding yields per endpoint. -/
structure SentryAPI where
  /-- Endpoint `organizations/<org>/`, decoded. -/
  GetOrg : String → Option Organization
  /-- Endpoint `organizations/<org>/projects/`, decoded. -/
  Projects : String → Option (List Project)
  /-- Endpoint `projects/<org>/<slug>/`, decoded. -/
  GetProject : String → String → Option Project
  /-- Endpoint `projects/<org>/<slug>/environments/`, names extracted. -/
  Environments : String → Project → Option (List String)
  /-- Endpoint `projects/<org>/<slug>/issues/`, the decoded array. -/
  issuesBody : String → Project → String → String → Option (List Val)
  /-- Endpoint `issues/<id>/current-release/`, the version string. -/
  IssueRelease : String → String → Option String
  /-- Endpoint `projects/<org>/<slug>/stats/?stat=<name>`, decoded `[]Event`. -/
  statsBody : String → String → String → Option (List (List Val))
  /-- Endpoint `projects/<org>/<slug>/keys/`, decoded list of maps. -/
  keysBody : String → String → Option (List Data)

/-- Method `SentryAPI.Issues` (sentry.go 229-258). -/
def SentryAPI.Issues (s : SentryAPI) (orgSlug : String) (project : Project)
    (environment age : String) : Option Data :=
  match s.issuesBody orgSlug project environment age with
  | none => none
  | some issues =>
    if issues.length = 0 then
      some [("message", Val.str "No issues found"), ("all", Val.arr [])]
    else
      let result : Data := [("all", Val.arr issues)]
      if environment ≠ "" then some (mapSet result environment (Val.arr issues))
      else some result

/-- Inner loop of `ProjectStats` (sentry.go 197-200): adds `int(event[1].(float64))`. -/
def sumEvents : List (List Val) → Int → Exec Int
  | [], acc => .ok acc
  | event :: rest, acc =>
    match event with
    | _ :: Val.num x :: _ => sumEvents rest (wrapInt64 (acc + toInt64 x))
    | _ => .panic

/-- First loop of `ProjectStats` (sentry.go 182-195): one request per stat name
in order, the first failure returns the error. -/
def fetchStats (s : SentryAPI) (orgSlug projectSlug : String) :
    List String → List (String × List (List Val)) → Option (List (String × List (List Val)))
  | [], stats => some stats
  | statName :: rest, stats =>
    match s.statsBody orgSlug projectSlug statName with
    | none => none
    | some events => fetchStats s orgSlug projectSlug rest (mapSet stats statName events)

/-- Second loop of `ProjectStats` (sentry.go 196-202). -/
def countStats : List (String × List (List Val)) → List (String × Int) →
    Exec (List (String × Int))
  | [], projectEvents => .ok projectEvents
  | (statName, events) :: rest, projectEvents =>
    match sumEvents events 0 with
    | .ok eventsCount => countStats rest (mapSet projectEvents statName eventsCount)
    | .ret => .ret
    | .panic => .panic

/-- Method `SentryAPI.ProjectStats` (sentry.go 175-205); the inner `none` is the
returned error, the map is listed in an arbitrary fixed order. -/
def SentryAPI.ProjectStats (s : SentryAPI) (orgSlug projectSlug : String) :
    Exec (Option (List (String × Int))) :=
  match fetchStats s orgSlug projectSlug ["received", "rejected", "blacklisted"] [] with
  | none => .ok none
  | some stats =>
    match countStats stats [] with
    | .ok projectEvents => .ok (some projectEvents)
    | .ret => .ret
    | .panic => .panic

/-- Method `SentryAPI.RateLimit` (sentry.go 370-396); the inner `none` is the
returned error. -/
def SentryAPI.RateLimit (s : SentryAPI) (orgSlug projectSlug : String) :
    Exec (Option ℚ) :=
  match s.keysBody orgSlug projectSlug with
  | none => .ok none
  | some rateLimits =>
    match rateLimits with
    | [] => .ok (some 0)
    | first :: _ =>
      match mapIndex first "rateLimit" with
      | .null => .ok (some 0)
      | .obj rateLimit =>
        match mapIndex rateLimit "window" with
        | .num window =>
          match mapIndex rateLimit "count" with
          | .num count => if window ≠ 0 then .ok (some (count / window)) else .ok (some 0)
          | _ => .panic
        | _ => .panic
      | _ => .panic

/-! ## Snapshot builder (`collector/prometheus.go` 54-309) -/

/-- Exporter configuration: the fields of `SentryCollector` set by
`NewSentryCollector`. -/
structure SentryCollector where
  sentryAPI : SentryAPI
  sentryOrgSlug : String
  sentryProjectsSlug : List String
  issueMetrics : Bool
  eventsMetrics : Bool
  rateLimitMetrics : Bool
  get1hMetrics : Bool
  get24hMetrics : Bool
  get14dMetrics : Bool

/-- One window block of the environment loop body (prometheus.go 119-140 for
`"1h"`, 144-168 for `"24h"`, 172-193 for `"14d"`, and 230-298 likewise).  The
flag is `false` when the block ends in `continue`, which leaves the body of the
environment loop. -/
def issuesBlock (c : SentryCollector) (orgSlug : String) (project : Project)
    (projectSlug env age : String) (t : IssueTree) : IssueTree × Bool :=
  match c.sentryAPI.Issues orgSlug project env age with
  | none => (t, false)
  | some issues =>
    let t1 : IssueTree :=
      match mapGet? t projectSlug with
      | none => mapSet t projectSlug []
      | some _ => t
    let t2 : IssueTree :=
      match mapGet? ((mapGet? t1 projectSlug).getD []) env with
      | none => mapSet t1 projectSlug (mapSet ((mapGet? t1 projectSlug).getD []) env [])
      | some _ => t1
    match mapIndex issues "all" with
    | .arr allIssues =>
      let pm : EnvMap := (mapGet? t2 projectSlug).getD []
      (mapSet t2 projectSlug (mapSet pm env (mapSet ((mapGet? pm env).getD []) age allIssues)),
        true)
    | _ => (t2, false)

/-- Body of the environment loop (prometheus.go 115-195 and 226-300). -/
def envBody (c : SentryCollector) (orgSlug : String) (project : Project)
    (projectSlug : String) (t : IssueTree) (env : String) : IssueTree :=
  let t0 : IssueTree := mapSet t projectSlug []
  let r1 := if c.get1hMetrics then issuesBlock c orgSlug project projectSlug env "1h" t0
    else (t0, true)
  if r1.2 = false then r1.1 else
  let r2 := if c.get24hMetrics then issuesBlock c orgSlug project projectSlug env "24h" r1.1
    else (r1.1, true)
  if r2.2 = false then r2.1 else
  if c.get14dMetrics then (issuesBlock c orgSlug project projectSlug env "14d" r2.1).1
  else r2.1

/-- Environment loop `for _, env := range envs`. -/
def envLoop (c : SentryCollector) (orgSlug : String) (project : Project)
    (projectSlug : String) : List String → IssueTree → IssueTree
  | [], t => t
  | env :: rest, t =>
    envLoop c orgSlug project projectSlug rest (envBody c orgSlug project projectSlug t env)

/-- Read `data["metadata"].(map[string]interface{})[k]`. -/
def metaGet (data : Data) (k : String) : Exec Val :=
  match asMap (mapIndex data "metadata") with
  | .ok metadata => .ok (mapIndex metadata k)
  | .ret => .ret
  | .panic => .panic

/-- Write `data["metadata"].(map[string]interface{})[k] = v`. -/
def metaSet (data : Data) (k : String) (v : Val) : Exec Data :=
  match asMap (mapIndex data "metadata") with
  | .ok metadata => .ok (mapSet data "metadata" (Val.obj (mapSet metadata k v)))
  | .ret => .ret
  | .panic => .panic

/-- Environment and issue part shared by both project loops (prometheus.go
103-197 and 214-302): `none` from `Environments` is the `continue`. -/
def loadProject (c : SentryCollector) (org : Organization) (project : Project)
    (projectSlug : String) (data : Data) : Exec Data :=
  match c.sentryAPI.Environments org.Slug project with
  | none => .ok data
  | some envs => do
    let projectsEnvs ← (metaGet data "projects_envs").bind asMap
    let data1 ← metaSet data "projects_envs"
      (Val.obj (mapSet projectsEnvs projectSlug (Val.stringSlice envs)))
    if c.issueMetrics then
      .ok (mapSet data1 "projects_data"
        (Val.issueData (envLoop c org.Slug project projectSlug envs [])))
    else .ok data1

/-- Body of the loop over the configured slugs (prometheus.go 85-198). -/
def selectorStep (c : SentryCollector) (org : Organization) (data : Data)
    (projectSlug : String) : Exec Data :=
  match c.sentryAPI.GetProject org.Slug projectSlug with
  | none => .ok data
  | some project => do
    let projects ← (metaGet data "projects").bind asSlice
    let data1 ← metaSet data "projects" (Val.arr (projects ++ [Val.projectPtr project]))
    let projectsSlug ← (metaGet data1 "projects_slug").bind asStringSlice
    let data2 ← metaSet data1 "projects_slug" (Val.stringSlice (projectsSlug ++ [projectSlug]))
    loadProject c org project projectSlug data2

/-- Loop over the configured slugs. -/
def selectorLoop (c : SentryCollector) (org : Organization) :
    List String → Data → Exec Data
  | [], data => .ok data
  | projectSlug :: rest, data =>
    (selectorStep c org data projectSlug).bind (selectorLoop c org rest)

/-- Body of the loop over the listed projects (prometheus.go 210-303). -/
def listingStep (c : SentryCollector) (org : Organization) (data : Data)
    (project : Project) : Exec Data := do
  let projectsSlug ← (metaGet data "projects_slug").bind asStringSlice
  let data1 ← metaSet data "projects_slug" (Val.stringSlice (projectsSlug ++ [project.Slug]))
  loadProject c org project project.Slug data1

/-- Loop over the listed projects. -/
def listingLoop (c : SentryCollector) (org : Organization) :
    List Project → Data → Exec Data
  | [], data => .ok data
  | project :: rest, data =>
    (listingStep c org data project).bind (listingLoop c org rest)

/-! ## Cache file (`collector/utils.go`) -/

/-- Constant `DefaultCacheExpireTimestamp`, two minutes in seconds. -/
def DefaultCacheExpireTimestamp : Int := 120

/-- State of the file `JSONCacheFile` as `getCached` meets it. -/
inductive CacheFile where
  /-- No such file: `os.Open` fails with a not-exist error. -/
  | missing
  /-- The file exists but `os.Open` fails. -/
  | unreadable
  /-- The content does not decode into `map[string]interface{}`. -/
  | garbled
  /-- The content decodes into this map (a `null` document into the empty one). -/
  | json (cache : Data)

/-- The cache file and whether `os.Create` on it succeeds. -/
structure Store where
  file : CacheFile
  writable : Bool

mutual
/-- What `encoding/json` decodes, into `interface{}`, from the encoding of a value. -/
def toJSON : Val → Val
  | .null => .null
  | .bool b => .bool b
  | .num x => .num x
  | .str s => .str s
  | .arr xs => .arr (toJSONList xs)
  | .obj kvs => .obj (toJSONFields kvs)
  | .int64 n => .num n
  | .orgPtr o => .obj [("id", .str o.ID), ("slug", .str o.Slug), ("name", .str o.Name),
      ("status", .obj [("id", .str o.StatusID), ("name", .str o.StatusName)])]
  | .projectPtr p => .obj [("id", .str p.ID), ("slug", .str p.Slug), ("name", .str p.Name),
      ("status", .str p.Status), ("platform", .str p.Platform)]
  | .projectSlice ps => .arr (ps.map fun p =>
      .obj [("id", .str p.ID), ("slug", .str p.Slug), ("name", .str p.Name),
        ("status", .str p.Status), ("platform", .str p.Platform)])
  | .stringSlice ss => .arr (ss.map Val.str)
  | .issueData t => .obj (toJSONTree t)
/-- Elementwise `toJSON` on a slice. -/
def toJSONList : List Val → List Val
  | [] => []
  | x :: xs => toJSON x :: toJSONList xs
/-- Fieldwise `toJSON` on a map. -/
def toJSONFields : List (String × Val) → List (String × Val)
  | [] => []
  | (k, v) :: rest => (k, toJSON v) :: toJSONFields rest
/-- Decoded form of a window map. -/
def toJSONWindows : List (String × List Val) → List (String × Val)
  | [] => []
  | (k, v) :: rest => (k, .arr (toJSONList v)) :: toJSONWindows rest
/-- Decoded form of an environment map. -/
def toJSONEnvs : List (String × List (String × List Val)) → List (String × Val)
  | [] => []
  | (k, v) :: rest => (k, .obj (toJSONWindows v)) :: toJSONEnvs rest
/-- Decoded form of the typed issue tree. -/
def toJSONTree : List (String × List (String × List (String × List Val))) →
    List (String × Val)
  | [] => []
  | (k, v) :: rest => (k, .obj (toJSONEnvs v)) :: toJSONTree rest
end

/-- Function `writeCache` (utils.go 12-27): returns the map after the
`expire_at` assignment, and the file afterwards. -/
def writeCache (store : Store) (data : Data) (expireTimestamp : Int) : Data × Store :=
  let data1 := mapSet data "expire_at" (Val.int64 expireTimestamp)
  if store.writable then (data1, { store with file := CacheFile.json (toJSONFields data1) })
  else (data1, store)

/-- Value of `time.Now().Unix()`, an `int64`, for the clock reading `now`: a
reading always fits the type, one given outside it counts as the nearest bound. -/
def unixNow (now : Int) : Int := max minInt64 (min now maxInt64)

/-- Function `getCached` (utils.go 29-56): the returned map (`none` is nil) and
whether the returned error is non-nil. -/
def getCached (file : CacheFile) (now : Int) : Option Data × Bool :=
  match file with
  | .missing => (none, false)
  | .unreadable => (none, true)
  | .garbled => (none, true)
  | .json cache =>
    match mapIndex cache "expire_at" with
    | .num expireTimestamp =>
      if toInt64 expireTimestamp ≤ unixNow now then (none, false) else (some cache, false)
    | _ => (none, true)

/-- Method `buildSentryDataFromAPI` (prometheus.go 54-309): the returned map
(`none` is nil) and the store afterwards. -/
def buildSentryDataFromAPI (c : SentryCollector) (store : Store) (now : Int) :
    Exec (Option Data × Store) :=
  match c.sentryAPI.GetOrg c.sentryOrgSlug with
  | none => .ok (none, store)
  | some org =>
    let data : Data := [("metadata", Val.obj [("org", Val.orgPtr org),
      ("projects", Val.arr []), ("projects_slug", Val.stringSlice []),
      ("projects_envs", Val.obj [])])]
    if c.sentryProjectsSlug.length > 0 then do
      let data1 ← selectorLoop c org c.sentryProjectsSlug data
      let _ ← (metaGet data1 "projects").bind asSlice
      let r := writeCache store data1 (now + DefaultCacheExpireTimestamp)
      .ok (some r.1, r.2)
    else
      match c.sentryAPI.Projects c.sentryOrgSlug with
      | none => .ok (none, store)
      | some projects => do
        let data1 ← metaSet data "projects" (Val.projectSlice projects)
        let data2 ← listingLoop c org projects data1
        let _ ← (metaGet data2 "projects").bind asSlice
        let r := writeCache store data2 (now + DefaultCacheExpireTimestamp)
        .ok (some r.1, r.2)

/-- Method `buildSentryData` (prometheus.go 312-330). -/
def buildSentryData (c : SentryCollector) (store : Store) (now : Int) :
    Exec (Option Data × Store) :=
  match getCached store.file now with
  | (_, true) => .ok (none, store)
  | (none, false) => buildSentryDataFromAPI c store now
  | (some data, false) => .ok (some data, store)

/-! ## Metric projection (`collector/prometheus.go` 338-680) -/

/-- One call recorded on a metric vector; a vector reaches the channel when its
`Collect(ch)` is executed. -/
inductive Sample where
  /-- Call `Observe` on `sentry_open_issues_histogram`. -/
  | histogram (project_slug environment : String) (value : ℚ)
  /-- Call `Set` on `sentry_open_issue_events`, labels in declaration order. -/
  | gauge (labels : List String) (value : ℚ)
  /-- Call `Add` on `sentry_events`. -/
  | counter (project_slug stat : String) (value : ℚ)
  /-- Call `Set` on `sentry_rate_limit_events_sec`. -/
  | rateLimit (project_slug : String) (value : ℚ)

/-- Count loop of one window (prometheus.go 394-410, 422-438, 451-467). -/
def sumCounts (lib : GoLib) : List Val → Int → Exec Int
  | [], events => .ok events
  | issue :: rest, events =>
    match issue with
    | .obj issueMap =>
      match mapIndex issueMap "count" with
      | .num v => sumCounts lib rest (wrapInt64 (events + toInt64 v))
      | .str v =>
        match lib.ParseFloat v with
        | none => sumCounts lib rest events
        | some floatVal => sumCounts lib rest (wrapInt64 (events + toInt64 floatVal))
      | _ => sumCounts lib rest events
    | _ => .panic

/-- One window block of the histogram section (prometheus.go 391-417, 419-446,
448-475). -/
def observeWindow (lib : GoLib) (projectSlug env : String) (projectIssuesEnv : Data)
    (age : String) (obs : List Sample) : Exec (List Sample) :=
  match mapIndex projectIssuesEnv age with
  | .null => .ok obs
  | v =>
    (asSlice v).bind fun projectIssues =>
    (sumCounts lib projectIssues 0).bind fun events =>
    .ok (obs ++ [Sample.histogram projectSlug env (toFloat64 events)])

/-- Body of the environment loop of the histogram section (prometheus.go 376-476). -/
def histogramEnv (lib : GoLib) (projectSlug : String) (projectIssues : Data)
    (obs : List Sample) (env : String) : Exec (List Sample) :=
  match mapIndex projectIssues env with
  | .null => .ok obs
  | v =>
    (asMap v).bind fun projectIssuesEnv =>
    (observeWindow lib projectSlug env projectIssuesEnv "1h" obs).bind fun obs1 =>
    (observeWindow lib projectSlug env projectIssuesEnv "24h" obs1).bind fun obs2 =>
    observeWindow lib projectSlug env projectIssuesEnv "14d" obs2

/-- Environment loop of the histogram section. -/
def histogramEnvs (lib : GoLib) (projectSlug : String) (projectIssues : Data) :
    List String → List Sample → Exec (List Sample)
  | [], obs => .ok obs
  | env :: rest, obs =>
    (histogramEnv lib projectSlug projectIssues obs env).bind
      (histogramEnvs lib projectSlug projectIssues rest)

/-- Conversion loop `envs = append(envs, env.(string))` (prometheus.go 370-373). -/
def envStrings : List Val → Exec (List String)
  | [] => .ok []
  | env :: rest =>
    (asString env).bind fun e => (envStrings rest).bind fun es => .ok (e :: es)

/-- Body of the project loop of the histogram section (prometheus.go 364-477). -/
def histogramProject (lib : GoLib) (metadata projectsData : Data) (obs : List Sample)
    (project : Val) : Exec (List Sample) :=
  (asMap project).bind fun projectMap =>
  (asString (mapIndex projectMap "slug")).bind fun projectSlug =>
  (asMap (mapIndex metadata "projects_envs")).bind fun projectsEnvs =>
  (asSlice (mapIndex projectsEnvs projectSlug)).bind fun envsInterface =>
  (envStrings envsInterface).bind fun envs =>
  (asMap (mapIndex projectsData projectSlug)).bind fun projectIssues =>
  histogramEnvs lib projectSlug projectIssues envs obs

/-- Project loop of the histogram section. -/
def histogramProjects (lib : GoLib) (metadata projectsData : Data) :
    List Val → List Sample → Exec (List Sample)
  | [], obs => .ok obs
  | project :: rest, obs =>
    (histogramProject lib metadata projectsData obs project).bind
      (histogramProjects lib metadata projectsData rest)

/-- Histogram section (prometheus.go 352-480): the observations flushed by
`issuesHistogramMetrics.Collect(ch)`. -/
def histogramSection (lib : GoLib) (c : SentryCollector) (metadata projectsData : Data) :
    Exec (List Sample) :=
  if c.issueMetrics then
    (asSlice (mapIndex metadata "projects")).bind fun projects =>
    histogramProjects lib metadata projectsData projects []
  else .ok []

/-- Checked assertion `v, ok := x.(string)` followed by `return` when not ok. -/
def stringOrReturn : Val → Exec String
  | .str s => .ok s
  | _ => .ret

/-- Checked read `v, ok := m[k]` followed by `return` when not ok. -/
def keyOrReturn (m : Data) (k : String) : Exec Val :=
  match mapGet? m k with
  | some v => .ok v
  | none => .ret

/-- Count of the gauge section (prometheus.go 549-562): `none` is the `continue`. -/
def gaugeCount (lib : GoLib) (issueMap : Data) : Option ℚ :=
  match mapIndex issueMap "count" with
  | .num count => some count
  | .str countStr => lib.ParseFloat countStr
  | _ => none

/-- Body of the issue loop of the gauge section (prometheus.go 541-618). -/
def gaugeIssue (lib : GoLib) (c : SentryCollector) (projectSlug env : String)
    (sets : List Sample) (issue : Val) : Exec (List Sample) :=
  (asMap issue).bind fun issueMap =>
  (asString (mapIndex issueMap "id")).bind fun issueID =>
  match c.sentryAPI.IssueRelease issueID env with
  | none => .ok sets
  | some release =>
    match gaugeCount lib issueMap with
    | none => .ok sets
    | some count =>
      (stringOrReturn (mapIndex issueMap "id")).bind fun id =>
      (stringOrReturn (mapIndex issueMap "logger")).bind fun logger =>
      (stringOrReturn (mapIndex issueMap "level")).bind fun level =>
      (stringOrReturn (mapIndex issueMap "status")).bind fun status =>
      (stringOrReturn (mapIndex issueMap "platform")).bind fun platform =>
      (keyOrReturn issueMap "isUnhandled").bind fun isUnhandled =>
      (keyOrReturn issueMap "firstSeen").bind fun firstSeen =>
      (keyOrReturn issueMap "lastSeen").bind fun lastSeen =>
      .ok (sets ++ [Sample.gauge [id, logger, level, status, platform, projectSlug, env,
        release, lib.Sprintv isUnhandled, lib.Sprintv firstSeen, lib.Sprintv lastSeen] count])

/-- Issue loop of the gauge section. -/
def gaugeIssues (lib : GoLib) (c : SentryCollector) (projectSlug env : String) :
    List Val → List Sample → Exec (List Sample)
  | [], sets => .ok sets
  | issue :: rest, sets =>
    (gaugeIssue lib c projectSlug env sets issue).bind (gaugeIssues lib c projectSlug env rest)

/-- Body of the time frame loop of the gauge section (prometheus.go 534-619). -/
def gaugeWindow (lib : GoLib) (c : SentryCollector) (projectSlug env : String)
    (projectIssuesEnv : Data) (sets : List Sample) (timeFrame : String) :
    Exec (List Sample) :=
  match mapGet? projectIssuesEnv timeFrame with
  | none => .ok sets
  | some v =>
    (asSlice v).bind fun projectIssuesTimeFrame =>
    gaugeIssues lib c projectSlug env projectIssuesTimeFrame sets

/-- Time frame loop of the gauge section. -/
def gaugeWindows (lib : GoLib) (c : SentryCollector) (projectSlug env : String)
    (projectIssuesEnv : Data) : List String → List Sample → Exec (List Sample)
  | [], sets => .ok sets
  | timeFrame :: rest, sets =>
    (gaugeWindow lib c projectSlug env projectIssuesEnv sets timeFrame).bind
      (gaugeWindows lib c projectSlug env projectIssuesEnv rest)

/-- Body of the environment loop of the gauge section (prometheus.go 525-620). -/
def gaugeEnv (lib : GoLib) (c : SentryCollector) (projectSlug : String)
    (projectIssues : Data) (sets : List Sample) (env : String) : Exec (List Sample) :=
  match mapIndex projectIssues env with
  | .null => .ok sets
  | v =>
    (asMap v).bind fun projectIssuesEnv =>
    gaugeWindows lib c projectSlug env projectIssuesEnv ["1h", "24h", "14d"] sets

/-- Environment loop of the gauge section. -/
def gaugeEnvs (lib : GoLib) (c : SentryCollector) (projectSlug : String)
    (projectIssues : Data) : List String → List Sample → Exec (List Sample)
  | [], sets => .ok sets
  | env :: rest, sets =>
    (gaugeEnv lib c projectSlug projectIssues sets env).bind
      (gaugeEnvs lib c projectSlug projectIssues rest)

/-- Conversion loop of the gauge section (prometheus.go 514-522): an element
that is not a string is skipped. -/
def envStringsChecked : List Val → List String
  | [] => []
  | .str envStr :: rest => envStr :: envStringsChecked rest
  | _ :: rest => envStringsChecked rest

/-- Body of the project loop of the gauge section (prometheus.go 504-621). -/
def gaugeProject (lib : GoLib) (c : SentryCollector) (metadata projectsData : Data)
    (sets : List Sample) (project : Val) : Exec (List Sample) :=
  (asMap project).bind fun projectMap =>
  (asString (mapIndex projectMap "slug")).bind fun projectSlug =>
  (asMap (mapIndex metadata "projects_envs")).bind fun projectsEnvs =>
  match mapIndex projectsEnvs projectSlug with
  | .arr envsInterface =>
    (asMap (mapIndex projectsData projectSlug)).bind fun projectIssues =>
    gaugeEnvs lib c projectSlug projectIssues (envStringsChecked envsInterface) sets
  | _ => .ok sets

/-- Project loop of the gauge section. -/
def gaugeProjects (lib : GoLib) (c : SentryCollector) (metadata projectsData : Data) :
    List Val → List Sample → Exec (List Sample)
  | [], sets => .ok sets
  | project :: rest, sets =>
    (gaugeProject lib c metadata projectsData sets project).bind
      (gaugeProjects lib c metadata projectsData rest)

/-- Gauge section (prometheus.go 483-624): the calls flushed by
`issuesMetrics.Collect(ch)`. -/
def gaugeSection (lib : GoLib) (c : SentryCollector) (metadata projectsData : Data) :
    Exec (List Sample) :=
  if c.issueMetrics then
    (asSlice (mapIndex metadata "projects")).bind fun projects =>
    gaugeProjects lib c metadata projectsData projects []
  else .ok []

/-- Loop `for stat, value := range events` (prometheus.go 644-649); `Counter.Add`
panics on a negative value. -/
def addEvents (projectSlug : String) : List (String × Int) → List Sample →
    Exec (List Sample)
  | [], adds => .ok adds
  | (stat, value) :: rest, adds =>
    if value < 0 then .panic
    else addEvents projectSlug rest (adds ++ [Sample.counter projectSlug stat (toFloat64 value)])

/-- Body of the project loop of the events section (prometheus.go 636-650). -/
def eventsProject (c : SentryCollector) (adds : List Sample) (project : Val) :
    Exec (List Sample) :=
  (asMap project).bind fun projectMap =>
  (asString (mapIndex projectMap "slug")).bind fun projectSlug =>
  (c.sentryAPI.ProjectStats c.sentryOrgSlug projectSlug).bind fun r =>
  match r with
  | none => .ok adds
  | some events => addEvents projectSlug events adds

/-- Project loop of the events section. -/
def eventsProjects (c : SentryCollector) : List Val → List Sample → Exec (List Sample)
  | [], adds => .ok adds
  | project :: rest, adds => (eventsProject c adds project).bind (eventsProjects c rest)

/-- Events section (prometheus.go 627-653). -/
def eventsSection (c : SentryCollector) (metadata : Data) : Exec (List Sample) :=
  if c.eventsMetrics then
    (asSlice (mapIndex metadata "projects")).bind fun projects =>
    eventsProjects c projects []
  else .ok []

/-- Body of the project loop of the rate limit section (prometheus.go 665-676). -/
def rateLimitProject (c : SentryCollector) (sets : List Sample) (project : Val) :
    Exec (List Sample) :=
  (asMap project).bind fun projectMap =>
  (asString (mapIndex projectMap "slug")).bind fun projectSlug =>
  (c.sentryAPI.RateLimit c.sentryOrgSlug projectSlug).bind fun r =>
  match r with
  | none => .ok sets
  | some rateLimitSecond => .ok (sets ++ [Sample.rateLimit projectSlug rateLimitSecond])

/-- Project loop of the rate limit section. -/
def rateLimitProjects (c : SentryCollector) : List Val → List Sample → Exec (List Sample)
  | [], sets => .ok sets
  | project :: rest, sets =>
    (rateLimitProject c sets project).bind (rateLimitProjects c rest)

/-- Rate limit section (prometheus.go 656-679). -/
def rateLimitSection (c : SentryCollector) (metadata : Data) : Exec (List Sample) :=
  if c.rateLimitMetrics then
    (asSlice (mapIndex metadata "projects")).bind fun projects =>
    rateLimitProjects c projects []
  else .ok []

/-- What a `Collect` pass leaves behind. -/
structure CollectResult where
  /-- Calls of the vectors flushed to the channel, in order. -/
  sent : List Sample
  /-- Whether the pass ended in a runtime panic. -/
  panicked : Bool
  /-- The cache store after the pass. -/
  store : Store

/-- Runs the sections in order: each completed one is flushed, an early return
or a panic ends the pass before the flush of its section. -/
def runSections : List (Exec (List Sample)) → List Sample → List Sample × Bool
  | [], sent => (sent, false)
  | .ok s :: rest, sent => runSections rest (sent ++ s)
  | .ret :: _, sent => (sent, false)
  | .panic :: _, sent => (sent, true)

/-- Body of `Collect` after `buildSentryData` (prometheus.go 341-680); a nil map
reads like an empty one. -/
def collectData (lib : GoLib) (c : SentryCollector) (data : Data) : List Sample × Bool :=
  match mapIndex data "metadata" with
  | .obj metadata =>
    match mapIndex data "projects_data" with
    | .obj projectsData =>
      match mapIndex metadata "org" with
      | .obj _ =>
        runSections [histogramSection lib c metadata projectsData,
          gaugeSection lib c metadata projectsData,
          eventsSection c metadata, rateLimitSection c metadata] []
      | _ => ([], true)
    | _ => ([], false)
  | _ => ([], true)

/-- Method `Collect` (prometheus.go 338-680). -/
def Collect (lib : GoLib) (c : SentryCollector) (store : Store) (now : Int) :
    CollectResult :=
  match buildSentryData c store now with
  | .ok (data, store1) =>
    let r := collectData lib c (data.getD [])
    { sent := r.1, panicked := r.2, store := store1 }
  | .ret => { sent := [], panicked := false, store := store }
  | .panic => { sent := [], panicked := true, store := store }

/-! ## Reading a snapshot, and the builder seen as a state transformer

These definitions are devices of the proofs: they embed no source function. -/

/-- Position of a window name in the order the builder visits them. -/
def windowRank (age : String) : Nat :=
  if age = "1h" then 0 else if age = "24h" then 1 else if age = "14d" then 2 else 3

/-- The same transport, except that the issue listing of project `p`,
environment `e` and window `w` fails. -/
def failIssues (api : SentryAPI) (p : Project) (e w : String) : SentryAPI :=
  { api with issuesBody := fun orgSlug project env age =>
      if project = p ∧ env = e ∧ age = w then none
      else api.issuesBody orgSlug project env age }

/-- The same collector over `failIssues`. -/
def withFailure (c : SentryCollector) (p : Project) (e w : String) : SentryCollector :=
  { c with sentryAPI := failIssues c.sentryAPI p e w }

/-- Windows switched on by the configuration, in the order of the loop body. -/
def enabledWindows (c : SentryCollector) : List String :=
  (if c.get1hMetrics then ["1h"] else []) ++ (if c.get24hMetrics then ["24h"] else []) ++
    (if c.get14dMetrics then ["14d"] else [])

/-- The window blocks of one environment run in sequence, a `continue` ending
the sequence: `envBody` is this on `enabledWindows` (see `envBody_eq_runBlocks`). -/
def runBlocks (c : SentryCollector) (orgSlug : String) (project : Project)
    (projectSlug env : String) : List String → IssueTree → IssueTree
  | [], t => t
  | age :: rest, t =>
    if (issuesBlock c orgSlug project projectSlug env age t).2 then
      runBlocks c orgSlug project projectSlug env rest
        (issuesBlock c orgSlug project projectSlug env age t).1
    else (issuesBlock c orgSlug project projectSlug env age t).1

/-- The four components of the snapshot the builder works on. -/
structure BuildState where
  projects : Val
  slugs : List String
  envs : Data
  tree : Option IssueTree

/-- The snapshot map with these components (prometheus.go 66-73, plus the
`projects_data` key once it is assigned). -/
def BuildState.toData (org : Organization) (st : BuildState) : Data :=
  ("metadata", Val.obj [("org", Val.orgPtr org), ("projects", st.projects),
    ("projects_slug", Val.stringSlice st.slugs), ("projects_envs", Val.obj st.envs)]) ::
  (match st.tree with
    | none => []
    | some t => [("projects_data", Val.issueData t)])

/-- Initial builder state (prometheus.go 66-73). -/
def initialState : BuildState := ⟨Val.arr [], [], [], none⟩

/-- Effect of `loadProject` on the components. -/
def loadProjectState (c : SentryCollector) (org : Organization) (project : Project)
    (projectSlug : String) (st : BuildState) : BuildState :=
  match c.sentryAPI.Environments org.Slug project with
  | none => st
  | some envs =>
    { st with
      envs := mapSet st.envs projectSlug (Val.stringSlice envs)
      tree := if c.issueMetrics then some (envLoop c org.Slug project projectSlug envs [])
        else st.tree }

/-- Effect of `selectorLoop` on the components; `ps` is the project slice so far. -/
def selectorState (c : SentryCollector) (org : Organization) :
    List String → List Val → BuildState → BuildState
  | [], _, st => st
  | projectSlug :: rest, ps, st =>
    match c.sentryAPI.GetProject org.Slug projectSlug with
    | none => selectorState c org rest ps st
    | some project =>
      selectorState c org rest (ps ++ [Val.projectPtr project])
        (loadProjectState c org project projectSlug
          { st with projects := Val.arr (ps ++ [Val.projectPtr project])
                    slugs := st.slugs ++ [projectSlug] })

/-- Effect of `listingLoop` on the components. -/
def listingState (c : SentryCollector) (org : Organization) :
    List Project → BuildState → BuildState
  | [], st => st
  | project :: rest, st =>
    listingState c org rest
      (loadProjectState c org project project.Slug
        { st with slugs := st.slugs ++ [project.Slug] })

/-- Issue list stored in a typed tree at (project slug, environment, window);
`none` when the branch has no entry. -/
def issuesIn (t : IssueTree) (projectSlug env age : String) : Option (List Val) :=
  ((mapGet? t projectSlug).bind fun envs => mapGet? envs env).bind fun windows =>
    mapGet? windows age

/-- Issue list of a branch in a tree that may not have been assigned. -/
def treeIssues (tree : Option IssueTree) (s e w : String) : Option (List Val) :=
  match tree with
  | none => none
  | some t => issuesIn t s e w

/-- Issue list held at a branch of `projects_data` by the map a build returns;
`none` when the build returns no map or the branch has no entry. -/
def snapshotIssues (r : Exec (Option Data × Store)) (s e w : String) : Option (List Val) :=
  match r with
  | .ok (some data, _) =>
    match mapIndex data "projects_data" with
    | .issueData t => issuesIn t s e w
    | _ => none
  | _ => none

/-- Branches other than window `w` and the windows after it of environment `e`
under a project slug satisfying `P`. -/
def Untouched (P : String → Prop) (e w s e' w' : String) : Prop :=
  ¬ (P s ∧ e' = e ∧ windowRank w ≤ windowRank w')

/-- Two trees hold the same issue lists on every `Untouched` branch. -/
def AgreeOff (P : String → Prop) (e w : String) (tb tg : IssueTree) : Prop :=
  ∀ s e' w', Untouched P e w s e' w' → issuesIn tb s e' w' = issuesIn tg s e' w'

/-- The cache file is corrupt: unreadable, undecodable, or without a numeric
`expire_at`. -/
def Corrupt (file : CacheFile) : Prop :=
  file = CacheFile.unreadable ∨ file = CacheFile.garbled ∨
    ∃ cache, file = CacheFile.json cache ∧ ∀ x, mapIndex cache "expire_at" ≠ Val.num x

/-! ## Remote calls of the builder, and the label names of the gauge

A second reading of `buildSentryDataFromAPI`, which lists the remote calls it
makes instead of building the snapshot. -/

/-- A remote call made by the builder. -/
inductive Call where
  | getOrg (orgSlug : String)
  | projects (orgSlug : String)
  | getProject (orgSlug projectSlug : String)
  | environments (orgSlug : String) (project : Project)
  | issues (orgSlug : String) (project : Project) (env age : String)

/-- Calls of the window blocks of one environment (prometheus.go 118-194,
229-299), the windows being those switched on: a block that ends in `continue`
ends the sequence. -/
def blockCalls (c : SentryCollector) (orgSlug : String) (project : Project) (env : String) :
    List String → List Call
  | [] => []
  | age :: rest =>
    Call.issues orgSlug project env age ::
      (match c.sentryAPI.Issues orgSlug project env age with
        | none => []
        | some issues =>
          match mapIndex issues "all" with
          | .arr _ => blockCalls c orgSlug project env rest
          | _ => [])

/-- Calls of the environment loop. -/
def envCalls (c : SentryCollector) (orgSlug : String) (project : Project) :
    List String → List Call
  | [] => []
  | env :: rest =>
    blockCalls c orgSlug project env (enabledWindows c) ++ envCalls c orgSlug project rest

/-- Calls of `loadProject` (prometheus.go 103-197, 214-302). -/
def loadProjectCalls (c : SentryCollector) (org : Organization) (project : Project) :
    List Call :=
  Call.environments org.Slug project ::
    (match c.sentryAPI.Environments org.Slug project with
      | none => []
      | some envs => if c.issueMetrics then envCalls c org.Slug project envs else [])

/-- Calls of the loop over the configured slugs (prometheus.go 85-198). -/
def selectorCalls (c : SentryCollector) (org : Organization) : List String → List Call
  | [] => []
  | projectSlug :: rest =>
    Call.getProject org.Slug projectSlug ::
      ((match c.sentryAPI.GetProject org.Slug projectSlug with
        | none => []
        | some project => loadProjectCalls c org project) ++ selectorCalls c org rest)

/-- Calls of the loop over the listed projects (prometheus.go 210-303). -/
def listingCalls (c : SentryCollector) (org : Organization) : List Project → List Call
  | [] => []
  | project :: rest => loadProjectCalls c org project ++ listingCalls c org rest

/-- The remote calls `buildSentryDataFromAPI` makes, in order (prometheus.go
58, 89, 103, 120-173, 203, 214, 231-279). -/
def buildCalls (c : SentryCollector) : List Call :=
  Call.getOrg c.sentryOrgSlug ::
    (match c.sentryAPI.GetOrg c.sentryOrgSlug with
      | none => []
      | some org =>
        if c.sentryProjectsSlug.length > 0 then selectorCalls c org c.sentryProjectsSlug
        else
          Call.projects c.sentryOrgSlug ::
            (match c.sentryAPI.Projects c.sentryOrgSlug with
              | none => []
              | some projects => listingCalls c org projects))

/-! ## Shapes of issues and of statistics points, places in the snapshot -/

/-- The issue map has a usable count `x`: the number itself, or a string that
`ParseFloat` reads as `x`. -/
def CountIs (lib : GoLib) (issueMap : Data) (x : ℚ) : Prop :=
  mapIndex issueMap "count" = Val.num x ∨
    ∃ s, mapIndex issueMap "count" = Val.str s ∧ lib.ParseFloat s = some x

/-- The count of the issue map is neither a number nor a string that
`ParseFloat` reads. -/
def UnusableCount (lib : GoLib) (issueMap : Data) : Prop :=
  (∀ x, mapIndex issueMap "count" ≠ Val.num x) ∧
    ∀ s, mapIndex issueMap "count" = Val.str s → lib.ParseFloat s = none

/-- One of the fields of `IssueFields` other than the id has the wrong shape. -/
def ShapeMismatch (issueMap : Data) : Prop :=
  (∀ s, mapIndex issueMap "logger" ≠ Val.str s) ∨ (∀ s, mapIndex issueMap "level" ≠ Val.str s) ∨
  (∀ s, mapIndex issueMap "status" ≠ Val.str s) ∨
  (∀ s, mapIndex issueMap "platform" ≠ Val.str s) ∨
  mapGet? issueMap "isUnhandled" = none ∨ mapGet? issueMap "firstSeen" = none ∨
  mapGet? issueMap "lastSeen" = none

/-- The event is a `[timestamp, count]` point whose count is the number `x`. -/
def IsPoint (event : List Val) (x : ℚ) : Prop :=
  ∃ timestamp rest, event = timestamp :: Val.num x :: rest

/-- Value of a string of decimal digits, most significant first. -/
def digitsValue : List Char → Nat → Option Nat
  | [], acc => some acc
  | ch :: rest, acc =>
    if 48 ≤ ch.toNat ∧ ch.toNat ≤ 57 then digitsValue rest (10 * acc + (ch.toNat - 48))
    else none

/-- A sample library: `ParseFloat` restricted to unsigned decimal integers and
`Sprintv` on the JSON scalars that need no number formatting. -/
def sampleLib : GoLib where
  ParseFloat := fun s =>
    match s.data with
    | [] => none
    | ch :: rest => (digitsValue (ch :: rest) 0).map fun n => ((n : Int) : ℚ)
  Sprintv := fun v =>
    match v with
    | .bool true => "true"
    | .bool false => "false"
    | .str s => s
    | .null => "<nil>"
    | _ => ""

/-- A sample organization. -/
def sampleOrg : Organization := ⟨"1", "acme", "Acme", "active", "active"⟩

/-- A sample project with the given slug. -/
def sampleProject (slug : String) : Project := ⟨"7", slug, slug, "active", "go"⟩

/-- A well-formed sample issue with the given id and count. -/
def sampleIssue (id : String) (count : Val) : Val :=
  Val.obj [("id", Val.str id), ("count", count), ("logger", Val.str "app"),
    ("level", Val.str "error"), ("status", Val.str "unresolved"), ("platform", Val.str "go"),
    ("isUnhandled", Val.bool false), ("firstSeen", Val.str "2024-01-01T00:00:00Z"),
    ("lastSeen", Val.str "2024-01-02T00:00:00Z")]

/-- A sample transport in which every call succeeds: each project has the
environments `envs`, each branch one issue of count 3. -/
def sampleAPI (envs : List String) : SentryAPI where
  GetOrg := fun _ => some sampleOrg
  Projects := fun _ => some [sampleProject "p1", sampleProject "p2"]
  GetProject := fun _ slug => some (sampleProject slug)
  Environments := fun _ _ => some envs
  issuesBody := fun _ project env age =>
    some [sampleIssue (project.Slug ++ "-" ++ env ++ "-" ++ age) (Val.num 3)]
  IssueRelease := fun _ _ => some "v1"
  statsBody := fun _ _ _ => some [[Val.num 1700000000, Val.num 2]]
  keysBody := fun _ _ => some []

/-- A sample collector: every metric family on, windows 1h and 24h on. -/
def sampleCollector (api : SentryAPI) (slugs : List String) : SentryCollector :=
  ⟨api, "acme", slugs, true, true, true, true, true, false⟩

/-- An empty, writable store. -/
def emptyStore : Store := ⟨CacheFile.missing, true⟩

/-- A transport in which the environment listing of project `p1` fails. -/
def envFailureAPI : SentryAPI :=
  { sampleAPI ["prod"] with
    Environments := fun _ project => if project.Slug = "p1" then none else some ["prod"] }

/-- A transport in which the organization lookup fails. -/
def orgFailureAPI : SentryAPI :=
  { sampleAPI ["prod"] with GetOrg := fun _ => none }

/-- An issue without the `logger` field, otherwise like `sampleIssue`. -/
def mismatchIssue : Val :=
  Val.obj [("id", Val.str "bad"), ("count", Val.num 1), ("level", Val.str "error"),
    ("status", Val.str "unresolved"), ("platform", Val.str "go"),
    ("isUnhandled", Val.bool false), ("firstSeen", Val.str "2024-01-01T00:00:00Z"),
    ("lastSeen", Val.str "2024-01-02T00:00:00Z")]

/-- One project, one environment, only the 1h window on, every family on: the
listing holds a well-formed issue followed by `mismatchIssue`. -/
def mismatchCollector : SentryCollector :=
  ⟨{ sampleAPI ["prod"] with
      issuesBody := fun _ _ _ _ => some [sampleIssue "good" (Val.num 3), mismatchIssue] },
    "acme", ["p"], true, true, true, true, false, false⟩

/-- The collector of `mismatchCollector` with the well-formed issue alone. -/
def wellFormedCollector : SentryCollector :=
  ⟨{ sampleAPI ["prod"] with
      issuesBody := fun _ _ _ _ => some [sampleIssue "good" (Val.num 3)] },
    "acme", ["p"], true, true, true, true, false, false⟩

/-- A store whose cache entry expired at second 50. -/
def expiredStore : Store := ⟨CacheFile.json [("expire_at", Val.num 50)], true⟩

/-- A transport in which the project listing fails. -/
def listingFailureAPI : SentryAPI :=
  { sampleAPI ["prod"] with Projects := fun _ => none }

/-- A transport in which the lookup of project `p2` fails. -/
def projectFailureAPI : SentryAPI :=
  { sampleAPI ["prod"] with
    GetProject := fun _ slug => if slug = "p2" then none else some (sampleProject slug) }

/-- A transport whose first key has a rate limit of 300 events per 60 seconds. -/
def rateLimitAPI : SentryAPI :=
  { sampleAPI ["prod"] with
    keysBody := fun _ _ =>
      some [[("rateLimit", Val.obj [("window", Val.num 60), ("count", Val.num 300)])]] }

/-- A transport whose statistics hold two points, of counts 2 and 3, per stat. -/
def statsAPI : SentryAPI :=
  { sampleAPI ["prod"] with
    statsBody := fun _ _ _ =>
      some [[Val.num 1700000000, Val.num 2], [Val.num 1700003600, Val.num 3]] }

/-- A whole number that does not fit `int64`. -/
def hugeCount : Int := 10000000000000000000

/-- A transport whose statistics hold one point, of count `hugeCount`, per stat. -/
def overflowStatsAPI : SentryAPI :=
  { sampleAPI ["prod"] with
    statsBody := fun _ _ _ => some [[Val.num 1700000000, Val.num (hugeCount : ℚ)]] }

/-! ## Lemmas on maps and on the builder -/

theorem mapGet?_mapSet {α : Type} (m : List (String × α)) (k k' : String) (v : α) :
    mapGet? (mapSet m k v) k' = if k = k' then some v else mapGet? m k' := by
  induction m with
  | nil => simp [mapSet, mapGet?]
  | cons hd tl ih =>
    obtain ⟨k0, v0⟩ := hd
    by_cases h0 : k0 = k
    · subst h0
      by_cases h1 : k0 = k' <;> simp [mapSet, mapGet?, h1]
    · by_cases h1 : k0 = k'
      · subst h1
        have : ¬ k = k0 := fun h => h0 h.symm
        simp [mapSet, mapGet?, h0, this]
      · simp [mapSet, mapGet?, h0, h1, ih]

theorem mapSet_mapSet {α : Type} (m : List (String × α)) (k : String) (v v' : α) :
    mapSet (mapSet m k v) k v' = mapSet m k v' := by
  induction m with
  | nil => simp [mapSet]
  | cons hd tl ih =>
    obtain ⟨k0, v0⟩ := hd
    by_cases h0 : k0 = k
    · simp [mapSet, h0]
    · simp [mapSet, h0, ih]

theorem Issues_all (s : SentryAPI) (orgSlug : String) (project : Project) (env age : String)
    (issues : Data) (h : s.Issues orgSlug project env age = some issues) :
    ∃ l, s.issuesBody orgSlug project env age = some l ∧ mapIndex issues "all" = Val.arr l := by
  unfold SentryAPI.Issues at h
  cases hb : s.issuesBody orgSlug project env age with
  | none => simp [hb] at h
  | some l =>
    refine ⟨l, rfl, ?_⟩
    simp only [hb] at h
    by_cases hl : l.length = 0
    · simp only [hl, if_true, Option.some.injEq] at h
      subst h
      have : l = [] := List.length_eq_zero.mp hl
      subst this
      simp [mapIndex, mapGet?]
    · simp only [hl, if_false] at h
      by_cases he : env = ""
      · simp [he] at h
        subst h
        simp [mapIndex, mapGet?]
      · simp only [ne_eq, he, not_false_eq_true, if_true, Option.some.injEq] at h
        subst h
        simp only [mapIndex, mapGet?_mapSet]
        by_cases ha : env = "all"
        · simp [ha]
        · simp [ha, mapGet?]

theorem issuesBlock_none (c : SentryCollector) (orgSlug : String) (project : Project)
    (projectSlug env age : String) (t : IssueTree)
    (h : c.sentryAPI.issuesBody orgSlug project env age = none) :
    issuesBlock c orgSlug project projectSlug env age t = (t, false) := by
  simp [issuesBlock, SentryAPI.Issues, h]

theorem issuesBlock_tree (c : SentryCollector) (orgSlug : String) (project : Project)
    (projectSlug env age : String) (t : IssueTree) (l : List Val)
    (h : c.sentryAPI.issuesBody orgSlug project env age = some l) :
    issuesBlock c orgSlug project projectSlug env age t =
      (mapSet t projectSlug (mapSet ((mapGet? t projectSlug).getD []) env
        (mapSet ((mapGet? ((mapGet? t projectSlug).getD []) env).getD []) age l)), true) := by
  cases hI : c.sentryAPI.Issues orgSlug project env age with
  | none =>
    simp only [SentryAPI.Issues, h] at hI
    split at hI
    · cases hI
    · split at hI <;> cases hI
  | some issues =>
    obtain ⟨l', hl', hall⟩ := Issues_all _ _ _ _ _ _ hI
    rw [h] at hl'
    cases hl'
    simp only [issuesBlock, hI, hall]
    cases h1 : mapGet? t projectSlug with
    | none => simp [mapGet?_mapSet, mapGet?, mapSet_mapSet]
    | some pm =>
      cases h2 : mapGet? pm env with
      | none => simp [mapGet?_mapSet, h1, h2, mapGet?, mapSet_mapSet]
      | some em => simp [h1, h2]

theorem issuesIn_update (t : IssueTree) (projectSlug env age : String) (l : List Val)
    (s e w : String) :
    issuesIn (mapSet t projectSlug (mapSet ((mapGet? t projectSlug).getD []) env
        (mapSet ((mapGet? ((mapGet? t projectSlug).getD []) env).getD []) age l))) s e w =
      if projectSlug = s ∧ env = e ∧ age = w then some l else issuesIn t s e w := by
  simp only [issuesIn, mapGet?_mapSet]
  by_cases hs : projectSlug = s
  · subst hs
    by_cases he : env = e
    · subst he
      by_cases hw : age = w
      · simp [hw, mapGet?_mapSet]
      · cases h1 : mapGet? t projectSlug with
        | none => simp [hw, mapGet?, mapGet?_mapSet]
        | some pm =>
          cases h2 : mapGet? pm env with
          | none => simp [hw, mapGet?, mapGet?_mapSet, h2]
          | some em => simp [hw, mapGet?_mapSet, h2]
    · cases h1 : mapGet? t projectSlug with
      | none => simp [he, mapGet?, mapGet?_mapSet]
      | some pm => simp [he, mapGet?_mapSet]
  · simp [hs]

theorem envBody_eq_runBlocks (c : SentryCollector) (orgSlug : String) (project : Project)
    (projectSlug : String) (t : IssueTree) (env : String) :
    envBody c orgSlug project projectSlug t env =
      runBlocks c orgSlug project projectSlug env (enabledWindows c) (mapSet t projectSlug []) := by
  unfold envBody enabledWindows
  cases c.get1hMetrics <;> cases c.get24hMetrics <;> cases c.get14dMetrics <;>
    simp [runBlocks] <;> (repeat' split) <;> simp_all

theorem runBlocks_good_only (c : SentryCollector) (orgSlug : String) (project : Project)
    (P : String → Prop) (projectSlug e w : String) (hP : P projectSlug) (ages : List String)
    (hages : ∀ a ∈ ages, windowRank w ≤ windowRank a) (tb tg : IssueTree)
    (h : AgreeOff P e w tb tg) :
    AgreeOff P e w tb (runBlocks c orgSlug project projectSlug e ages tg) := by
  induction ages generalizing tg with
  | nil => simpa [runBlocks] using h
  | cons a rest ih =>
    have hrest : ∀ a ∈ rest, windowRank w ≤ windowRank a := fun x hx =>
      hages x (List.mem_cons_of_mem _ hx)
    cases hb : c.sentryAPI.issuesBody orgSlug project e a with
    | none => simpa [runBlocks, issuesBlock_none _ _ _ _ _ _ _ hb] using h
    | some l =>
      simp only [runBlocks, issuesBlock_tree _ _ _ _ _ _ _ _ hb, if_true]
      apply ih hrest
      intro s e' w' hu
      rw [issuesIn_update]
      have : ¬ (projectSlug = s ∧ e = e' ∧ a = w') := by
        rintro ⟨rfl, rfl, rfl⟩
        exact hu ⟨hP, rfl, hages a (List.mem_cons_self _ _)⟩
      rw [if_neg this]
      exact h s e' w' hu

theorem runBlocks_agree (c : SentryCollector) (orgSlug : String) (project p : Project)
    (P : String → Prop) (projectSlug env e w : String) (hP : project = p → P projectSlug)
    (ages : List String)
    (hsorted : ages.Pairwise fun a b => windowRank a < windowRank b) (tb tg : IssueTree)
    (h : AgreeOff P e w tb tg) :
    AgreeOff P e w (runBlocks (withFailure c p e w) orgSlug project projectSlug env ages tb)
      (runBlocks c orgSlug project projectSlug env ages tg) := by
  induction ages generalizing tb tg with
  | nil => simpa [runBlocks] using h
  | cons a rest ih =>
    rw [List.pairwise_cons] at hsorted
    by_cases hfail : project = p ∧ env = e ∧ a = w
    · obtain ⟨rfl, rfl, rfl⟩ := hfail
      have hb : (withFailure c project env a).sentryAPI.issuesBody orgSlug project env a = none := by
        simp [withFailure, failIssues]
      rw [show runBlocks (withFailure c project env a) orgSlug project projectSlug env (a :: rest) tb
        = tb by simp [runBlocks, issuesBlock_none _ _ _ _ _ _ _ hb]]
      apply runBlocks_good_only _ _ _ _ _ _ _ (hP rfl)
      · intro x hx
        rcases List.mem_cons.mp hx with rfl | hx
        · exact le_refl _
        · exact le_of_lt (hsorted.1 x hx)
      · exact h
    · have hsame : (withFailure c p e w).sentryAPI.issuesBody orgSlug project env a =
          c.sentryAPI.issuesBody orgSlug project env a := by
        simp [withFailure, failIssues, hfail]
      cases hb : c.sentryAPI.issuesBody orgSlug project env a with
      | none =>
        rw [hb] at hsame
        simpa [runBlocks, issuesBlock_none _ _ _ _ _ _ _ hb,
          issuesBlock_none _ _ _ _ _ _ _ hsame] using h
      | some l =>
        rw [hb] at hsame
        simp only [runBlocks, issuesBlock_tree _ _ _ _ _ _ _ _ hb,
          issuesBlock_tree _ _ _ _ _ _ _ _ hsame, if_true]
        apply ih hsorted.2
        intro s e' w' hu
        rw [issuesIn_update, issuesIn_update, h s e' w' hu]

theorem enabledWindows_sorted (c : SentryCollector) :
    (enabledWindows c).Pairwise fun a b => windowRank a < windowRank b := by
  unfold enabledWindows
  cases c.get1hMetrics <;> cases c.get24hMetrics <;> cases c.get14dMetrics <;>
    simp [windowRank]

theorem issuesIn_reset (t : IssueTree) (projectSlug s e w : String) :
    issuesIn (mapSet t projectSlug []) s e w =
      if projectSlug = s then none else issuesIn t s e w := by
  simp only [issuesIn, mapGet?_mapSet]
  by_cases h : projectSlug = s <;> simp [h, mapGet?]

theorem envLoop_agree (c : SentryCollector) (orgSlug : String) (project p : Project)
    (P : String → Prop) (projectSlug e w : String) (hP : project = p → P projectSlug)
    (envs : List String) (tb tg : IssueTree) (h : AgreeOff P e w tb tg) :
    AgreeOff P e w (envLoop (withFailure c p e w) orgSlug project projectSlug envs tb)
      (envLoop c orgSlug project projectSlug envs tg) := by
  induction envs generalizing tb tg with
  | nil => simpa [envLoop] using h
  | cons env rest ih =>
    unfold envLoop
    apply ih
    rw [envBody_eq_runBlocks, envBody_eq_runBlocks]
    apply runBlocks_agree c orgSlug project p P projectSlug env e w hP _
      (enabledWindows_sorted c)
    intro s e' w' hu
    rw [issuesIn_reset, issuesIn_reset, h s e' w' hu]

theorem selectorState_agree (c : SentryCollector) (org : Organization) (p : Project)
    (e w : String) (slugs : List String) (ps : List Val) (sb sg : BuildState)
    (h : ∀ s e' w', Untouched (fun s => c.sentryAPI.GetProject org.Slug s = some p) e w s e' w' →
      treeIssues sb.tree s e' w' = treeIssues sg.tree s e' w') :
    ∀ s e' w', Untouched (fun s => c.sentryAPI.GetProject org.Slug s = some p) e w s e' w' →
      treeIssues (selectorState (withFailure c p e w) org slugs ps sb).tree s e' w' =
        treeIssues (selectorState c org slugs ps sg).tree s e' w' := by
  induction slugs generalizing ps sb sg with
  | nil => simpa [selectorState] using h
  | cons projectSlug rest ih =>
    unfold selectorState
    have hG : (withFailure c p e w).sentryAPI.GetProject org.Slug projectSlug =
        c.sentryAPI.GetProject org.Slug projectSlug := rfl
    rw [hG]
    cases hP : c.sentryAPI.GetProject org.Slug projectSlug with
    | none => exact ih ps sb sg h
    | some project =>
      apply ih
      have hE : (withFailure c p e w).sentryAPI.Environments org.Slug project =
          c.sentryAPI.Environments org.Slug project := rfl
      have hM : (withFailure c p e w).issueMetrics = c.issueMetrics := rfl
      simp only [loadProjectState, hE, hM]
      cases c.sentryAPI.Environments org.Slug project with
      | none => exact h
      | some envs =>
        cases c.issueMetrics with
        | false => exact h
        | true =>
          intro s e' w' hu
          simp only [if_true, treeIssues]
          refine envLoop_agree c org.Slug project p _ projectSlug e w ?_ envs [] []
            (fun _ _ _ _ => rfl) s e' w' hu
          intro hpp
          rw [hP, hpp]

theorem metaGet_toData (org : Organization) (st : BuildState) (k : String) :
    metaGet (st.toData org) k = Exec.ok (mapIndex [("org", Val.orgPtr org),
      ("projects", st.projects), ("projects_slug", Val.stringSlice st.slugs),
      ("projects_envs", Val.obj st.envs)] k) := by
  simp [metaGet, BuildState.toData, mapIndex, mapGet?, asMap]

theorem metaSet_projects (org : Organization) (st : BuildState) (v : Val) :
    metaSet (st.toData org) "projects" v = Exec.ok (({ st with projects := v }).toData org) := by
  simp [metaSet, BuildState.toData, mapIndex, mapGet?, asMap, mapSet]

theorem metaSet_slugs (org : Organization) (st : BuildState) (ss : List String) :
    metaSet (st.toData org) "projects_slug" (Val.stringSlice ss) =
      Exec.ok (({ st with slugs := ss }).toData org) := by
  simp [metaSet, BuildState.toData, mapIndex, mapGet?, asMap, mapSet]

theorem metaSet_envs (org : Organization) (st : BuildState) (es : Data) :
    metaSet (st.toData org) "projects_envs" (Val.obj es) =
      Exec.ok (({ st with envs := es }).toData org) := by
  simp [metaSet, BuildState.toData, mapIndex, mapGet?, asMap, mapSet]

theorem mapSet_tree (org : Organization) (st : BuildState) (t : IssueTree) :
    mapSet (st.toData org) "projects_data" (Val.issueData t) =
      ({ st with tree := some t }).toData org := by
  cases h : st.tree <;> simp [BuildState.toData, mapSet, h]

theorem bind_ok {α β : Type} (a : α) (f : α → Exec β) : (Exec.ok a).bind f = f a := rfl

theorem bind_ok_monad {α β : Type} (a : α) (f : α → Exec β) : (Exec.ok a >>= f) = f a := rfl

theorem loadProject_toData (c : SentryCollector) (org : Organization) (project : Project)
    (projectSlug : String) (st : BuildState) :
    loadProject c org project projectSlug (st.toData org) =
      Exec.ok ((loadProjectState c org project projectSlug st).toData org) := by
  unfold loadProject loadProjectState
  cases hE : c.sentryAPI.Environments org.Slug project with
  | none => rfl
  | some envs =>
    simp only [metaGet_toData, bind_ok, bind_ok_monad, mapIndex, mapGet?, asMap, metaSet_envs]
    simp only [String.reduceEq, if_false, if_true, Option.getD_some, bind_ok, bind_ok_monad,
      metaSet_envs, asMap]
    cases c.issueMetrics
    · simp
    · simp [mapSet_tree]

theorem loadProjectState_projects (c : SentryCollector) (org : Organization)
    (project : Project) (projectSlug : String) (st : BuildState) :
    (loadProjectState c org project projectSlug st).projects = st.projects := by
  simp only [loadProjectState]
  split <;> rfl

theorem selectorLoop_toData (c : SentryCollector) (org : Organization) (slugs : List String)
    (ps : List Val) (st : BuildState) (hps : st.projects = Val.arr ps) :
    selectorLoop c org slugs (st.toData org) =
      Exec.ok ((selectorState c org slugs ps st).toData org) := by
  induction slugs generalizing ps st with
  | nil => rfl
  | cons projectSlug rest ih =>
    unfold selectorLoop selectorState selectorStep
    cases hP : c.sentryAPI.GetProject org.Slug projectSlug with
    | none => simpa [bind_ok] using ih ps st hps
    | some project =>
      simp only [metaGet_toData, bind_ok, bind_ok_monad, mapIndex, mapGet?, metaSet_projects,
        String.reduceEq, if_false, if_true, Option.getD_some, hps, asSlice, asStringSlice,
        metaSet_slugs, loadProject_toData]
      rw [← ih]
      exact loadProjectState_projects _ _ _ _ _

theorem selectorState_projects (c : SentryCollector) (org : Organization)
    (slugs : List String) (ps : List Val) (st : BuildState) (hps : st.projects = Val.arr ps) :
    ∃ qs, (selectorState c org slugs ps st).projects = Val.arr qs := by
  induction slugs generalizing ps st with
  | nil => exact ⟨ps, hps⟩
  | cons projectSlug rest ih =>
    unfold selectorState
    cases hP : c.sentryAPI.GetProject org.Slug projectSlug with
    | none => exact ih ps st hps
    | some project =>
      apply ih
      exact loadProjectState_projects _ _ _ _ _

theorem listingLoop_toData (c : SentryCollector) (org : Organization) (projects : List Project)
    (st : BuildState) :
    listingLoop c org projects (st.toData org) =
      Exec.ok ((listingState c org projects st).toData org) := by
  induction projects generalizing st with
  | nil => rfl
  | cons project rest ih =>
    unfold listingLoop listingState listingStep
    simp only [metaGet_toData, bind_ok, bind_ok_monad, mapIndex, mapGet?,
      String.reduceEq, if_false, if_true, Option.getD_some, asStringSlice,
      metaSet_slugs, loadProject_toData]
    rw [← ih]

theorem listingState_projects (c : SentryCollector) (org : Organization)
    (projects : List Project) (st : BuildState) :
    (listingState c org projects st).projects = st.projects := by
  induction projects generalizing st with
  | nil => rfl
  | cons project rest ih =>
    unfold listingState
    rw [ih]
    exact loadProjectState_projects _ _ _ _ _

theorem build_selector (c : SentryCollector) (store : Store) (now : Int) (org : Organization)
    (horg : c.sentryAPI.GetOrg c.sentryOrgSlug = some org)
    (hsel : c.sentryProjectsSlug ≠ []) :
    buildSentryDataFromAPI c store now =
      Exec.ok (some (writeCache store
        ((selectorState c org c.sentryProjectsSlug [] initialState).toData org)
          (now + DefaultCacheExpireTimestamp)).1,
        (writeCache store
        ((selectorState c org c.sentryProjectsSlug [] initialState).toData org)
          (now + DefaultCacheExpireTimestamp)).2) := by
  have hlen : c.sentryProjectsSlug.length > 0 := List.length_pos.mpr hsel
  obtain ⟨qs, hqs⟩ := selectorState_projects c org c.sentryProjectsSlug [] initialState rfl
  have h0 : ([("metadata", Val.obj [("org", Val.orgPtr org), ("projects", Val.arr []),
      ("projects_slug", Val.stringSlice []), ("projects_envs", Val.obj [])])] : Data) =
      initialState.toData org := rfl
  unfold buildSentryDataFromAPI
  simp only [horg, hlen, if_true, h0, selectorLoop_toData c org _ [] initialState rfl,
    bind_ok, bind_ok_monad, metaGet_toData, mapIndex, mapGet?, String.reduceEq, if_false,
    Option.getD_some, hqs, asSlice]

theorem build_listing (c : SentryCollector) (store : Store) (now : Int) (org : Organization)
    (projects : List Project)
    (horg : c.sentryAPI.GetOrg c.sentryOrgSlug = some org)
    (hsel : c.sentryProjectsSlug = [])
    (hprojects : c.sentryAPI.Projects c.sentryOrgSlug = some projects) :
    buildSentryDataFromAPI c store now = Exec.panic := by
  have h0 : ([("metadata", Val.obj [("org", Val.orgPtr org), ("projects", Val.arr []),
      ("projects_slug", Val.stringSlice []), ("projects_envs", Val.obj [])])] : Data) =
      initialState.toData org := rfl
  unfold buildSentryDataFromAPI
  simp only [horg, hsel, List.length_nil, gt_iff_lt, lt_self_iff_false, if_false, hprojects,
    h0, metaSet_projects, bind_ok, bind_ok_monad, listingLoop_toData, metaGet_toData,
    listingState_projects, mapIndex, mapGet?, String.reduceEq, if_true, Option.getD_some,
    asSlice]
  rfl

theorem runBlocks_absent (c : SentryCollector) (org : Organization) (project p : Project)
    (projectSlug env e w : String)
    (hres : c.sentryAPI.GetProject org.Slug projectSlug = some project)
    (ages : List String) (t : IssueTree)
    (h : ∀ s, c.sentryAPI.GetProject org.Slug s = some p → issuesIn t s e w = none) :
    ∀ s, c.sentryAPI.GetProject org.Slug s = some p →
      issuesIn (runBlocks (withFailure c p e w) org.Slug project projectSlug env ages t) s e w
        = none := by
  induction ages generalizing t with
  | nil => simpa [runBlocks] using h
  | cons a rest ih =>
    cases hb : (withFailure c p e w).sentryAPI.issuesBody org.Slug project env a with
    | none => simpa [runBlocks, issuesBlock_none _ _ _ _ _ _ _ hb] using h
    | some l =>
      simp only [runBlocks, issuesBlock_tree _ _ _ _ _ _ _ _ hb, if_true]
      apply ih
      intro s hs
      rw [issuesIn_update]
      have : ¬ (projectSlug = s ∧ env = e ∧ a = w) := by
        rintro ⟨rfl, rfl, rfl⟩
        rw [hres] at hs
        cases hs
        simp [withFailure, failIssues] at hb
      rw [if_neg this]
      exact h s hs

theorem envLoop_absent (c : SentryCollector) (org : Organization) (project p : Project)
    (projectSlug e w : String)
    (hres : c.sentryAPI.GetProject org.Slug projectSlug = some project)
    (envs : List String) (t : IssueTree)
    (h : ∀ s, c.sentryAPI.GetProject org.Slug s = some p → issuesIn t s e w = none) :
    ∀ s, c.sentryAPI.GetProject org.Slug s = some p →
      issuesIn (envLoop (withFailure c p e w) org.Slug project projectSlug envs t) s e w
        = none := by
  induction envs generalizing t with
  | nil => simpa [envLoop] using h
  | cons env rest ih =>
    unfold envLoop
    apply ih
    rw [envBody_eq_runBlocks]
    apply runBlocks_absent c org project p projectSlug env e w hres
    intro s hs
    rw [issuesIn_reset]
    split
    · rfl
    · exact h s hs

theorem selectorState_absent (c : SentryCollector) (org : Organization) (p : Project)
    (e w : String) (slugs : List String) (ps : List Val) (st : BuildState)
    (h : ∀ s, c.sentryAPI.GetProject org.Slug s = some p → treeIssues st.tree s e w = none) :
    ∀ s, c.sentryAPI.GetProject org.Slug s = some p →
      treeIssues (selectorState (withFailure c p e w) org slugs ps st).tree s e w = none := by
  induction slugs generalizing ps st with
  | nil => simpa [selectorState] using h
  | cons projectSlug rest ih =>
    unfold selectorState
    have hG : (withFailure c p e w).sentryAPI.GetProject org.Slug projectSlug =
        c.sentryAPI.GetProject org.Slug projectSlug := rfl
    rw [hG]
    cases hP : c.sentryAPI.GetProject org.Slug projectSlug with
    | none => exact ih ps st h
    | some project =>
      apply ih
      simp only [loadProjectState]
      cases (withFailure c p e w).sentryAPI.Environments org.Slug project with
      | none => exact h
      | some envs =>
        cases (withFailure c p e w).issueMetrics with
        | false => exact h
        | true =>
          intro s hs
          simp only [if_true, treeIssues]
          exact envLoop_absent c org project p projectSlug e w hP envs []
            (fun _ _ => rfl) s hs

theorem snapshotIssues_toData (org : Organization) (st : BuildState) (store : Store)
    (n : Int) (s e w : String) :
    snapshotIssues (Exec.ok (some (writeCache store (st.toData org) n).1,
      (writeCache store (st.toData org) n).2)) s e w = treeIssues st.tree s e w := by
  have h1 : (writeCache store (st.toData org) n).1 =
      mapSet (st.toData org) "expire_at" (Val.int64 n) := by
    unfold writeCache
    split <;> rfl
  simp only [snapshotIssues, h1, mapIndex, mapGet?_mapSet, String.reduceEq, if_false]
  cases ht : st.tree with
  | none => simp [BuildState.toData, ht, mapGet?, treeIssues]
  | some t => simp [BuildState.toData, ht, mapGet?, treeIssues]

theorem snapshotIssues_listing (c : SentryCollector) (store : Store) (now : Int)
    (hsel : c.sentryProjectsSlug = []) (s e w : String) :
    snapshotIssues (buildSentryDataFromAPI c store now) s e w = none := by
  cases horg : c.sentryAPI.GetOrg c.sentryOrgSlug with
  | none => simp [buildSentryDataFromAPI, horg, snapshotIssues]
  | some org =>
    cases hp : c.sentryAPI.Projects c.sentryOrgSlug with
    | none => simp [buildSentryDataFromAPI, horg, hsel, hp, snapshotIssues]
    | some projects => rw [build_listing c store now org projects horg hsel hp]; rfl

theorem runBlocks_later_absent (c : SentryCollector) (org : Organization) (project p : Project)
    (projectSlug env e w : String)
    (hres : c.sentryAPI.GetProject org.Slug projectSlug = some project)
    (ages : List String)
    (hsorted : ages.Pairwise fun a b => windowRank a < windowRank b)
    (hin : project = p → env = e → w ∈ ages) (t : IssueTree)
    (h : ∀ s, c.sentryAPI.GetProject org.Slug s = some p →
      ∀ w', windowRank w ≤ windowRank w' → issuesIn t s e w' = none) :
    ∀ s, c.sentryAPI.GetProject org.Slug s = some p →
      ∀ w', windowRank w ≤ windowRank w' →
      issuesIn (runBlocks (withFailure c p e w) org.Slug project projectSlug env ages t) s e w'
        = none := by
  induction ages generalizing t with
  | nil => simpa [runBlocks] using h
  | cons a rest ih =>
    rw [List.pairwise_cons] at hsorted
    cases hb : (withFailure c p e w).sentryAPI.issuesBody org.Slug project env a with
    | none => simpa [runBlocks, issuesBlock_none _ _ _ _ _ _ _ hb] using h
    | some l =>
      have hne : ¬ (project = p ∧ env = e ∧ a = w) := by
        intro hc
        simp [withFailure, failIssues, hc] at hb
      simp only [runBlocks, issuesBlock_tree _ _ _ _ _ _ _ _ hb, if_true]
      apply ih hsorted.2
      · intro hp he
        rcases List.mem_cons.mp (hin hp he) with hw | hw
        · exact absurd ⟨hp, he, hw.symm⟩ hne
        · exact hw
      · intro s hs w' hw'
        rw [issuesIn_update]
        have : ¬ (projectSlug = s ∧ env = e ∧ a = w') := by
          rintro ⟨rfl, rfl, rfl⟩
          rw [hres] at hs
          cases hs
          rcases List.mem_cons.mp (hin rfl rfl) with hw | hw
          · exact hne ⟨rfl, rfl, hw.symm⟩
          · exact absurd (hsorted.1 w hw) (not_lt.mpr hw')
        rw [if_neg this]
        exact h s hs w' hw'

theorem envLoop_later_absent (c : SentryCollector) (org : Organization) (project p : Project)
    (projectSlug e w : String)
    (hres : c.sentryAPI.GetProject org.Slug projectSlug = some project)
    (hw : w ∈ enabledWindows c)
    (envs : List String) (t : IssueTree)
    (h : ∀ s, c.sentryAPI.GetProject org.Slug s = some p →
      ∀ w', windowRank w ≤ windowRank w' → issuesIn t s e w' = none) :
    ∀ s, c.sentryAPI.GetProject org.Slug s = some p →
      ∀ w', windowRank w ≤ windowRank w' →
      issuesIn (envLoop (withFailure c p e w) org.Slug project projectSlug envs t) s e w'
        = none := by
  induction envs generalizing t with
  | nil => simpa [envLoop] using h
  | cons env rest ih =>
    unfold envLoop
    apply ih
    rw [envBody_eq_runBlocks]
    apply runBlocks_later_absent c org project p projectSlug env e w hres _
      (enabledWindows_sorted c) (fun _ _ => hw)
    intro s hs w' hw'
    rw [issuesIn_reset]
    split
    · rfl
    · exact h s hs w' hw'

theorem selectorState_later_absent (c : SentryCollector) (org : Organization) (p : Project)
    (e w : String) (hw : w ∈ enabledWindows c)
    (slugs : List String) (ps : List Val) (st : BuildState)
    (h : ∀ s, c.sentryAPI.GetProject org.Slug s = some p →
      ∀ w', windowRank w ≤ windowRank w' → treeIssues st.tree s e w' = none) :
    ∀ s, c.sentryAPI.GetProject org.Slug s = some p →
      ∀ w', windowRank w ≤ windowRank w' →
      treeIssues (selectorState (withFailure c p e w) org slugs ps st).tree s e w' = none := by
  induction slugs generalizing ps st with
  | nil => simpa [selectorState] using h
  | cons projectSlug rest ih =>
    unfold selectorState
    have hG : (withFailure c p e w).sentryAPI.GetProject org.Slug projectSlug =
        c.sentryAPI.GetProject org.Slug projectSlug := rfl
    rw [hG]
    cases hP : c.sentryAPI.GetProject org.Slug projectSlug with
    | none => exact ih ps st h
    | some project =>
      apply ih
      simp only [loadProjectState]
      cases (withFailure c p e w).sentryAPI.Environments org.Slug project with
      | none => exact h
      | some envs =>
        cases (withFailure c p e w).issueMetrics with
        | false => exact h
        | true =>
          intro s hs w' hw'
          simp only [if_true, treeIssues]
          exact envLoop_later_absent c org project p projectSlug e w hP hw envs []
            (fun _ _ _ _ => rfl) s hs w' hw'

theorem writeCache_data (store : Store) (data : Data) (n : Int) :
    (writeCache store data n).1 = mapSet data "expire_at" (Val.int64 n) := by
  unfold writeCache
  split <;> rfl

theorem collectData_fresh (lib : GoLib) (c : SentryCollector) (org : Organization)
    (st : BuildState) (store : Store) (n : Int) :
    collectData lib c (writeCache store (st.toData org) n).1 = ([], false) := by
  rw [writeCache_data]
  cases ht : st.tree <;>
    simp [collectData, mapIndex, mapGet?_mapSet, BuildState.toData, ht, mapGet?]

theorem buildSentryData_miss (c : SentryCollector) (store : Store) (now : Int)
    (h : getCached store.file now = (none, false)) :
    buildSentryData c store now = buildSentryDataFromAPI c store now := by
  simp only [buildSentryData, h]

theorem wrapInt64_add (a b : Int) : wrapInt64 (wrapInt64 a + b) = wrapInt64 (a + b) := by
  unfold wrapInt64
  omega

theorem wrapInt64_isInt64 (a : Int) : IsInt64 (wrapInt64 a) := by
  unfold IsInt64 wrapInt64 minInt64 maxInt64
  omega

theorem wrapInt64_of_isInt64 (a : Int) (h : IsInt64 a) : wrapInt64 a = a := by
  unfold IsInt64 minInt64 maxInt64 at h
  unfold wrapInt64
  omega

theorem toInt64_of_fits (q : ℚ) (h : IsInt64 (truncate q)) : toInt64 q = truncate q :=
  if_pos h

theorem toInt64_of_overflow (q : ℚ) (h : ¬ IsInt64 (truncate q)) : toInt64 q = minInt64 :=
  if_neg h

theorem minInt64_le_unixNow (now : Int) : minInt64 ≤ unixNow now :=
  le_max_left _ _

theorem sum_toInt64_of_fits (counts : List ℚ) (h : ∀ x ∈ counts, IsInt64 (truncate x)) :
    (counts.map toInt64).sum = (counts.map truncate).sum := by
  induction counts with
  | nil => rfl
  | cons x xs ih =>
    simp only [List.map_cons, List.sum_cons]
    rw [toInt64_of_fits x (h x (List.mem_cons_self _ _)),
      ih fun y hy => h y (List.mem_cons_of_mem _ hy)]

/-- Claim C1, as amended.  Let the organization lookup succeed and let the
issue listing of project `p`, environment `e`, window `w` fail, all other
answers being those of collector `c`.  Then the snapshot of the failing run
holds, at every branch other than window `w` and the later windows of `e`
under a slug that resolves to `p`, the same issue list as the snapshot of the
run of `c`; it holds no entry at `(p, e, w)`; and when `w` is switched on it
holds no entry at the later windows of `(p, e)` either. -/
theorem issues_failure_isolation (c : SentryCollector) (store : Store) (now : Int)
    (org : Organization) (p : Project) (e w : String)
    (horg : c.sentryAPI.GetOrg c.sentryOrgSlug = some org) :
    (∀ s e' w',
      ¬ (c.sentryAPI.GetProject org.Slug s = some p ∧ e' = e ∧ windowRank w ≤ windowRank w') →
      snapshotIssues (buildSentryDataFromAPI (withFailure c p e w) store now) s e' w' =
        snapshotIssues (buildSentryDataFromAPI c store now) s e' w') ∧
    (∀ s, c.sentryAPI.GetProject org.Slug s = some p →
      snapshotIssues (buildSentryDataFromAPI (withFailure c p e w) store now) s e w = none) ∧
    (w ∈ enabledWindows c → ∀ s, c.sentryAPI.GetProject org.Slug s = some p →
      ∀ w', windowRank w ≤ windowRank w' →
      snapshotIssues (buildSentryDataFromAPI (withFailure c p e w) store now) s e w' = none) := by
  by_cases hsel : c.sentryProjectsSlug = []
  · have hsel2 : (withFailure c p e w).sentryProjectsSlug = [] := hsel
    refine ⟨fun s e' w' _ => ?_, fun s _ => ?_, fun _ s _ w' _ => ?_⟩
    · rw [snapshotIssues_listing _ _ _ hsel2, snapshotIssues_listing _ _ _ hsel]
    · rw [snapshotIssues_listing _ _ _ hsel2]
    · rw [snapshotIssues_listing _ _ _ hsel2]
  · have hsel2 : (withFailure c p e w).sentryProjectsSlug ≠ [] := hsel
    have horg2 : (withFailure c p e w).sentryAPI.GetOrg (withFailure c p e w).sentryOrgSlug =
        some org := horg
    rw [build_selector c store now org horg hsel,
      build_selector (withFailure c p e w) store now org horg2 hsel2]
    refine ⟨fun s e' w' hu => ?_, fun s hs => ?_, fun hw s hs w' hw' => ?_⟩
    · rw [snapshotIssues_toData, snapshotIssues_toData]
      exact selectorState_agree c org p e w _ [] initialState initialState
        (fun _ _ _ _ => rfl) s e' w' hu
    · rw [snapshotIssues_toData]
      exact selectorState_absent c org p e w _ [] initialState (fun _ _ => rfl) s hs
    · rw [snapshotIssues_toData]
      exact selectorState_later_absent c org p e w hw _ [] initialState
        (fun _ _ _ _ => rfl) s hs w' hw'

/-- Claim C1, as stated, fails: with windows 1h and 24h on and the 1h listing
of `(p, prod)` failing, the 24h branch, which is another branch, is absent
although the run without failure holds its issue list. -/
theorem issues_isolation_counterexample :
    (sampleCollector (sampleAPI ["prod"]) ["p"]).issueMetrics = true ∧
    ("prod", "24h") ≠ ("prod", "1h") ∧
    snapshotIssues (buildSentryDataFromAPI
      (withFailure (sampleCollector (sampleAPI ["prod"]) ["p"]) (sampleProject "p") "prod" "1h")
      emptyStore 0) "p" "prod" "24h" = none ∧
    snapshotIssues (buildSentryDataFromAPI (sampleCollector (sampleAPI ["prod"]) ["p"])
      emptyStore 0) "p" "prod" "24h" = some [sampleIssue "p-prod-24h" (Val.num 3)] :=
  ⟨rfl, by decide, rfl, rfl⟩

/-- Claim C1, amended, at concrete inputs, windows 1h and 24h on.  When the
1h listing of `(p, prod)` fails under the selector p, q, the 24h branch of q
equals that of the run without failure, where it is present.  When the 24h
listing of `(p, prod)` fails under the selector p, the 1h branch of p equals
that of the run without failure, where it is present, and the 24h branch is
absent.  When the 1h listing fails, the later 24h branch is absent too. -/
theorem issues_failure_isolation_witness :
    (snapshotIssues (buildSentryDataFromAPI
        (withFailure (sampleCollector (sampleAPI ["prod"]) ["p", "q"]) (sampleProject "p")
          "prod" "1h") emptyStore 0) "q" "prod" "24h" =
      snapshotIssues (buildSentryDataFromAPI (sampleCollector (sampleAPI ["prod"]) ["p", "q"])
        emptyStore 0) "q" "prod" "24h" ∧
      snapshotIssues (buildSentryDataFromAPI (sampleCollector (sampleAPI ["prod"]) ["p", "q"])
        emptyStore 0) "q" "prod" "24h" = some [sampleIssue "q-prod-24h" (Val.num 3)]) ∧
    (snapshotIssues (buildSentryDataFromAPI
        (withFailure (sampleCollector (sampleAPI ["prod"]) ["p"]) (sampleProject "p")
          "prod" "24h") emptyStore 0) "p" "prod" "1h" =
      snapshotIssues (buildSentryDataFromAPI (sampleCollector (sampleAPI ["prod"]) ["p"])
        emptyStore 0) "p" "prod" "1h" ∧
      snapshotIssues (buildSentryDataFromAPI (sampleCollector (sampleAPI ["prod"]) ["p"])
        emptyStore 0) "p" "prod" "1h" = some [sampleIssue "p-prod-1h" (Val.num 3)] ∧
      snapshotIssues (buildSentryDataFromAPI
        (withFailure (sampleCollector (sampleAPI ["prod"]) ["p"]) (sampleProject "p")
          "prod" "24h") emptyStore 0) "p" "prod" "24h" = none) ∧
    snapshotIssues (buildSentryDataFromAPI
      (withFailure (sampleCollector (sampleAPI ["prod"]) ["p"]) (sampleProject "p")
        "prod" "1h") emptyStore 0) "p" "prod" "24h" = none :=
  ⟨⟨(issues_failure_isolation (sampleCollector (sampleAPI ["prod"]) ["p", "q"]) emptyStore 0
      sampleOrg (sampleProject "p") "prod" "1h" rfl).1 "q" "prod" "24h"
        (fun h => by simp [sampleCollector, sampleAPI, sampleProject] at h), rfl⟩,
    ⟨(issues_failure_isolation (sampleCollector (sampleAPI ["prod"]) ["p"]) emptyStore 0
      sampleOrg (sampleProject "p") "prod" "24h" rfl).1 "p" "prod" "1h"
        (by simp [windowRank]), rfl,
      (issues_failure_isolation (sampleCollector (sampleAPI ["prod"]) ["p"]) emptyStore 0
        sampleOrg (sampleProject "p") "prod" "24h" rfl).2.1 "p" rfl⟩,
    (issues_failure_isolation (sampleCollector (sampleAPI ["prod"]) ["p"]) emptyStore 0
      sampleOrg (sampleProject "p") "prod" "1h" rfl).2.2 (by decide) "p" rfl "24h"
        (by decide)⟩

/-- Claim C2 fails on the code: with every call succeeding, a project with
environments prod and dev keeps the issue list of dev only, and of two projects
p1 and p2 only p2 keeps its issue list. -/
theorem accumulation_reset_example :
    snapshotIssues (buildSentryDataFromAPI (sampleCollector (sampleAPI ["prod", "dev"]) ["p"])
      emptyStore 0) "p" "prod" "1h" = none ∧
    snapshotIssues (buildSentryDataFromAPI (sampleCollector (sampleAPI ["prod", "dev"]) ["p"])
      emptyStore 0) "p" "dev" "1h" = some [sampleIssue "p-dev-1h" (Val.num 3)] ∧
    snapshotIssues (buildSentryDataFromAPI (sampleCollector (sampleAPI ["prod"]) ["p1", "p2"])
      emptyStore 0) "p1" "prod" "1h" = none ∧
    snapshotIssues (buildSentryDataFromAPI (sampleCollector (sampleAPI ["prod"]) ["p1", "p2"])
      emptyStore 0) "p2" "prod" "1h" = some [sampleIssue "p2-prod-1h" (Val.num 3)] :=
  ⟨rfl, rfl, rfl, rfl⟩

/-- Claim C3 fails on the code: when the environment listing of p1 fails and
every call for p2 succeeds, the build holds the issue list of p2, but the pass
that built the snapshot sends no sample, and the next pass, which reads the
snapshot from the cache, ends in a panic and sends no sample. -/
theorem environment_failure_example :
    snapshotIssues (buildSentryDataFromAPI (sampleCollector envFailureAPI ["p1", "p2"])
      emptyStore 0) "p2" "prod" "1h" = some [sampleIssue "p2-prod-1h" (Val.num 3)] ∧
    (Collect sampleLib (sampleCollector envFailureAPI ["p1", "p2"]) emptyStore 0).sent = [] ∧
    (Collect sampleLib (sampleCollector envFailureAPI ["p1", "p2"]) emptyStore 0).panicked
      = false ∧
    (Collect sampleLib (sampleCollector envFailureAPI ["p1", "p2"])
      (Collect sampleLib (sampleCollector envFailureAPI ["p1", "p2"]) emptyStore 0).store
      1).panicked = true ∧
    (Collect sampleLib (sampleCollector envFailureAPI ["p1", "p2"])
      (Collect sampleLib (sampleCollector envFailureAPI ["p1", "p2"]) emptyStore 0).store
      1).sent = [] :=
  ⟨rfl, rfl, rfl, rfl, rfl⟩

/-- Claim C5 fails on the code: for every corrupt cache file (unreadable,
undecodable, or without a numeric `expire_at`), `getCached` returns an error
and `buildSentryData` returns nil with the store as it was, where on a missing
file it returns what the build from the API returns; `Collect` then ends in a
runtime panic, having sent no sample and left the store as it was. -/
theorem corrupt_cache_not_rebuilt (lib : GoLib) (c : SentryCollector) (store : Store)
    (now : Int) (h : Corrupt store.file) :
    getCached store.file now = (none, true) ∧
    buildSentryData c store now = Exec.ok (none, store) ∧
    buildSentryData c { store with file := CacheFile.missing } now =
      buildSentryDataFromAPI c { store with file := CacheFile.missing } now ∧
    (Collect lib c store now).panicked = true ∧
    (Collect lib c store now).sent = [] ∧
    (Collect lib c store now).store = store := by
  have hg : getCached store.file now = (none, true) := by
    rcases h with h | h | ⟨cache, h, hx⟩
    · simp [h, getCached]
    · simp [h, getCached]
    · rw [h]
      cases hv : mapIndex cache "expire_at" with
      | num x => exact absurd hv (hx x)
      | _ => simp [getCached, hv]
  have hb : buildSentryData c store now = Exec.ok (none, store) := by
    simp [buildSentryData, hg]
  refine ⟨hg, hb, buildSentryData_miss c _ now rfl, ?_, ?_, ?_⟩ <;>
    simp [Collect, hb, collectData, mapIndex, mapGet?]

/-- Claim C5 at concrete inputs: on an undecodable cache file, and on a file
without `expire_at`, `buildSentryData` returns nil and `Collect` panics, whereas
on a missing file, all else equal, `buildSentryData` returns the snapshot built
from the API, which holds issue lists. -/
theorem corrupt_cache_not_rebuilt_witness :
    Corrupt (CacheFile.json [("metadata", Val.obj [])]) ∧
    buildSentryData (sampleCollector (sampleAPI ["prod"]) ["p"])
      ⟨CacheFile.json [("metadata", Val.obj [])], true⟩ 0 =
      Exec.ok (none, ⟨CacheFile.json [("metadata", Val.obj [])], true⟩) ∧
    buildSentryData (sampleCollector (sampleAPI ["prod"]) ["p"]) ⟨CacheFile.garbled, true⟩ 0 =
      Exec.ok (none, ⟨CacheFile.garbled, true⟩) ∧
    (Collect sampleLib (sampleCollector (sampleAPI ["prod"]) ["p"])
      ⟨CacheFile.garbled, true⟩ 0).panicked = true ∧
    (Collect sampleLib (sampleCollector (sampleAPI ["prod"]) ["p"])
      ⟨CacheFile.garbled, true⟩ 0).sent = [] ∧
    snapshotIssues (buildSentryData (sampleCollector (sampleAPI ["prod"]) ["p"])
        ⟨CacheFile.missing, true⟩ 0) "p" "prod" "1h" =
      some [sampleIssue "p-prod-1h" (Val.num 3)] :=
  have h : Corrupt (CacheFile.json [("metadata", Val.obj [])]) :=
    Or.inr (Or.inr ⟨_, rfl, fun _ hx => by cases hx⟩)
  ⟨h, (corrupt_cache_not_rebuilt sampleLib (sampleCollector (sampleAPI ["prod"]) ["p"])
      ⟨CacheFile.json [("metadata", Val.obj [])], true⟩ 0 h).2.1,
    (corrupt_cache_not_rebuilt sampleLib (sampleCollector (sampleAPI ["prod"]) ["p"])
      ⟨CacheFile.garbled, true⟩ 0 (Or.inr (Or.inl rfl))).2.1,
    (corrupt_cache_not_rebuilt sampleLib (sampleCollector (sampleAPI ["prod"]) ["p"])
      ⟨CacheFile.garbled, true⟩ 0 (Or.inr (Or.inl rfl))).2.2.2.1,
    (corrupt_cache_not_rebuilt sampleLib (sampleCollector (sampleAPI ["prod"]) ["p"])
      ⟨CacheFile.garbled, true⟩ 0 (Or.inr (Or.inl rfl))).2.2.2.2.1,
    rfl⟩

/-- Claim C6 fails on the code: whenever `buildSentryData` returns nil,
`Collect` ends in a runtime panic (the unchecked assertion on
`data["metadata"]`); it sends no sample. -/
theorem nil_snapshot_panics (lib : GoLib) (c : SentryCollector) (store store1 : Store)
    (now : Int) (h : buildSentryData c store now = Exec.ok (none, store1)) :
    (Collect lib c store now).panicked = true ∧ (Collect lib c store now).sent = [] := by
  simp [Collect, h, collectData, mapIndex, mapGet?]

/-- Claim C6 at a concrete input: no cache file and a failing organization
lookup. -/
theorem nil_snapshot_panics_witness :
    buildSentryData (sampleCollector orgFailureAPI ["p"]) emptyStore 0 =
      Exec.ok (none, emptyStore) ∧
    (Collect sampleLib (sampleCollector orgFailureAPI ["p"]) emptyStore 0).panicked = true ∧
    (Collect sampleLib (sampleCollector orgFailureAPI ["p"]) emptyStore 0).sent = [] :=
  ⟨rfl, nil_snapshot_panics sampleLib (sampleCollector orgFailureAPI ["p"]) emptyStore
    emptyStore 0 rfl⟩

/-- Claim C7 fails on the code: a pass that meets a cache miss sends no sample
at all, whatever the build returns. -/
theorem rebuild_pass_sends_nothing (lib : GoLib) (c : SentryCollector) (store : Store)
    (now : Int) (hmiss : getCached store.file now = (none, false)) :
    (Collect lib c store now).sent = [] := by
  unfold Collect
  rw [buildSentryData_miss c store now hmiss]
  cases horg : c.sentryAPI.GetOrg c.sentryOrgSlug with
  | none => simp [buildSentryDataFromAPI, horg, collectData, mapIndex, mapGet?]
  | some org =>
    by_cases hsel : c.sentryProjectsSlug = []
    · cases hp : c.sentryAPI.Projects c.sentryOrgSlug with
      | none => simp [buildSentryDataFromAPI, horg, hsel, hp, collectData, mapIndex, mapGet?]
      | some projects => rw [build_listing c store now org projects horg hsel hp]
    · rw [build_selector c store now org horg hsel]
      simp [collectData_fresh]

/-- Claim C7 at a concrete input: the pass that builds the snapshot sends
nothing and does not panic, and the next pass, a cache hit on that snapshot,
sends eight samples. -/
theorem rebuild_pass_sends_nothing_witness :
    getCached emptyStore.file 0 = (none, false) ∧
    (Collect sampleLib (sampleCollector (sampleAPI ["prod"]) ["p"]) emptyStore 0).sent = [] ∧
    (Collect sampleLib (sampleCollector (sampleAPI ["prod"]) ["p"]) emptyStore 0).panicked
      = false ∧
    (Collect sampleLib (sampleCollector (sampleAPI ["prod"]) ["p"])
      (Collect sampleLib (sampleCollector (sampleAPI ["prod"]) ["p"]) emptyStore 0).store
      1).sent =
      [Sample.histogram "p" "prod" 3, Sample.histogram "p" "prod" 3,
        Sample.gauge ["p-prod-1h", "app", "error", "unresolved", "go", "p", "prod", "v1",
          "false", "2024-01-01T00:00:00Z", "2024-01-02T00:00:00Z"] 3,
        Sample.gauge ["p-prod-24h", "app", "error", "unresolved", "go", "p", "prod", "v1",
          "false", "2024-01-01T00:00:00Z", "2024-01-02T00:00:00Z"] 3,
        Sample.counter "p" "received" 2, Sample.counter "p" "rejected" 2,
        Sample.counter "p" "blacklisted" 2, Sample.rateLimit "p" 0] :=
  ⟨rfl, rebuild_pass_sends_nothing sampleLib (sampleCollector (sampleAPI ["prod"]) ["p"])
    emptyStore 0 rfl, rfl, rfl⟩

/-- Claim C8 fails on the code: with an empty selector, a successful
organization lookup and a successful project listing, `buildSentryDataFromAPI`
ends in a runtime panic (the assertion of line 304 on a `[]sentry.Project`). -/
theorem listing_mode_panics (c : SentryCollector) (store : Store) (now : Int)
    (org : Organization) (projects : List Project)
    (horg : c.sentryAPI.GetOrg c.sentryOrgSlug = some org)
    (hsel : c.sentryProjectsSlug = [])
    (hprojects : c.sentryAPI.Projects c.sentryOrgSlug = some projects) :
    buildSentryDataFromAPI c store now = Exec.panic :=
  build_listing c store now org projects horg hsel hprojects

/-- Claim C8 at a concrete input: empty selector, two listed projects. -/
theorem listing_mode_panics_witness :
    (sampleCollector (sampleAPI ["prod"]) []).sentryProjectsSlug = [] ∧
    buildSentryDataFromAPI (sampleCollector (sampleAPI ["prod"]) []) emptyStore 0 =
      Exec.panic :=
  ⟨rfl, listing_mode_panics (sampleCollector (sampleAPI ["prod"]) []) emptyStore 0 sampleOrg
    [sampleProject "p1", sampleProject "p2"] rfl rfl rfl⟩

theorem gaugeCount_of_countIs (lib : GoLib) (issueMap : Data) (x : ℚ)
    (h : CountIs lib issueMap x) : gaugeCount lib issueMap = some x := by
  rcases h with h | ⟨s, hs, hp⟩
  · simp [gaugeCount, h]
  · simp [gaugeCount, hs, hp]

theorem gaugeCount_of_unusable (lib : GoLib) (issueMap : Data)
    (h : UnusableCount lib issueMap) : gaugeCount lib issueMap = none := by
  unfold gaugeCount
  cases hc : mapIndex issueMap "count" with
  | num x => exact absurd hc (h.1 x)
  | str s => simpa using h.2 s hc
  | _ => rfl

theorem stringOrReturn_str (s : String) : stringOrReturn (Val.str s) = Exec.ok s := rfl

theorem stringOrReturn_cases (v : Val) :
    stringOrReturn v = Exec.ret ∨ ∃ s, v = Val.str s ∧ stringOrReturn v = Exec.ok s := by
  cases v with
  | str s => exact Or.inr ⟨s, rfl, rfl⟩
  | _ => exact Or.inl rfl

theorem keyOrReturn_cases (m : Data) (k : String) :
    keyOrReturn m k = Exec.ret ∨ ∃ v, mapGet? m k = some v ∧ keyOrReturn m k = Exec.ok v := by
  unfold keyOrReturn
  cases mapGet? m k with
  | none => exact Or.inl rfl
  | some v => exact Or.inr ⟨v, rfl, rfl⟩

theorem sumCounts_unusable (lib : GoLib) (issueMap : Data) (h : UnusableCount lib issueMap)
    (rest : List Val) (events : Int) :
    sumCounts lib (Val.obj issueMap :: rest) events = sumCounts lib rest events := by
  rw [sumCounts]
  cases hc : mapIndex issueMap "count" with
  | num x => exact absurd hc (h.1 x)
  | str s => simp only [h.2 s hc]
  | _ => rfl

theorem sumCounts_congr (lib : GoLib) (x : Val) (r1 r2 : List Val)
    (h : ∀ events, sumCounts lib r1 events = sumCounts lib r2 events) (events : Int) :
    sumCounts lib (x :: r1) events = sumCounts lib (x :: r2) events := by
  cases x <;> simp only [sumCounts, h]

theorem sumCounts_skip (lib : GoLib) (issueMap : Data) (h : UnusableCount lib issueMap)
    (l1 l2 : List Val) (events : Int) :
    sumCounts lib (l1 ++ Val.obj issueMap :: l2) events = sumCounts lib (l1 ++ l2) events := by
  induction l1 generalizing events with
  | nil => exact sumCounts_unusable lib issueMap h l2 events
  | cons x rest ih => exact sumCounts_congr lib x _ _ ih events

theorem gaugeIssue_unusable (lib : GoLib) (c : SentryCollector) (projectSlug env : String)
    (sets : List Sample) (issueMap : Data) (id : String)
    (hid : mapIndex issueMap "id" = Val.str id) (h : UnusableCount lib issueMap) :
    gaugeIssue lib c projectSlug env sets (Val.obj issueMap) = Exec.ok sets := by
  simp only [gaugeIssue, asMap, asString, bind_ok, hid, gaugeCount_of_unusable lib issueMap h]
  cases c.sentryAPI.IssueRelease id env <;> rfl

theorem gaugeIssues_cons (lib : GoLib) (c : SentryCollector) (projectSlug env : String)
    (x : Val) (rest : List Val) (sets : List Sample) :
    gaugeIssues lib c projectSlug env (x :: rest) sets =
      (gaugeIssue lib c projectSlug env sets x).bind
        (gaugeIssues lib c projectSlug env rest) := rfl

theorem gaugeIssues_skip (lib : GoLib) (c : SentryCollector) (projectSlug env : String)
    (issue : Val)
    (h : ∀ sets, gaugeIssue lib c projectSlug env sets issue = Exec.ok sets)
    (l1 l2 : List Val) (sets : List Sample) :
    gaugeIssues lib c projectSlug env (l1 ++ issue :: l2) sets =
      gaugeIssues lib c projectSlug env (l1 ++ l2) sets := by
  induction l1 generalizing sets with
  | nil => simp only [List.nil_append, gaugeIssues_cons, h, bind_ok]
  | cons x rest ih =>
    simp only [List.cons_append, gaugeIssues_cons]
    cases gaugeIssue lib c projectSlug env sets x with
    | ok r => exact ih r
    | ret => rfl
    | panic => rfl

theorem truncate_eq_floor (x : ℚ) (h : 0 ≤ x) : truncate x = ⌊x⌋ := by
  unfold truncate
  rw [Rat.floor_def, Int.tdiv_eq_ediv (Rat.num_nonneg.mpr h) (Int.ofNat_nonneg _)]

theorem truncate_neg (x : ℚ) : truncate (-x) = -truncate x := by
  simp [truncate]

theorem truncate_eq_ceil (x : ℚ) (h : x ≤ 0) : truncate x = ⌈x⌉ := by
  have h1 : truncate (-x) = ⌊-x⌋ := truncate_eq_floor (-x) (neg_nonneg.mpr h)
  rw [truncate_neg, Int.floor_neg] at h1
  exact neg_injective h1

theorem truncate_le_of_le (x : ℚ) (n : Int) (h : x ≤ (n : ℚ)) : truncate x ≤ n := by
  rcases le_total 0 x with h0 | h0
  · rw [truncate_eq_floor x h0]
    exact Int.cast_le.mp (le_trans (Int.floor_le x) h)
  · rw [truncate_eq_ceil x h0]
    exact Int.ceil_le.mpr h

theorem mapIndex_mapSet_ne (m : Data) (k k' : String) (v : Val) (h : k ≠ k') :
    mapIndex (mapSet m k v) k' = mapIndex m k' := by
  simp [mapIndex, mapGet?_mapSet, h]

theorem mapIndex_mapSet_self (m : Data) (k : String) (v : Val) :
    mapIndex (mapSet m k v) k = v := by
  simp [mapIndex, mapGet?_mapSet]

theorem metaGet_mapSet_expire (data : Data) (k : String) (v : Val) :
    metaGet (mapSet data "expire_at" v) k = metaGet data k := by
  simp [metaGet, mapIndex_mapSet_ne]

theorem loadProjectState_slugs (c : SentryCollector) (org : Organization)
    (project : Project) (projectSlug : String) (st : BuildState) :
    (loadProjectState c org project projectSlug st).slugs = st.slugs := by
  simp only [loadProjectState]
  split <;> rfl

theorem selectorState_slugs (c : SentryCollector) (org : Organization)
    (slugs : List String) (ps : List Val) (st : BuildState) :
    (selectorState c org slugs ps st).slugs =
      st.slugs ++ slugs.filter fun s => (c.sentryAPI.GetProject org.Slug s).isSome := by
  induction slugs generalizing ps st with
  | nil => simp [selectorState]
  | cons s rest ih =>
    unfold selectorState
    cases hP : c.sentryAPI.GetProject org.Slug s with
    | none => simp [ih, hP]
    | some project => simp [ih, hP, loadProjectState_slugs]

theorem selectorState_projects_eq (c : SentryCollector) (org : Organization)
    (slugs : List String) (ps : List Val) (st : BuildState) (hps : st.projects = Val.arr ps) :
    (selectorState c org slugs ps st).projects =
      Val.arr (ps ++ slugs.filterMap fun s =>
        (c.sentryAPI.GetProject org.Slug s).map Val.projectPtr) := by
  induction slugs generalizing ps st with
  | nil => simpa [selectorState] using hps
  | cons s rest ih =>
    unfold selectorState
    cases hP : c.sentryAPI.GetProject org.Slug s with
    | none => simpa [hP] using ih ps st hps
    | some project =>
      simp only [List.filterMap_cons, hP, Option.map_some']
      rw [ih]
      · simp
      · exact loadProjectState_projects _ _ _ _ _

theorem resolved_pairs (c : SentryCollector) (org : Organization) (slugs : List String) :
    List.Forall₂ (fun s v => ∃ project, c.sentryAPI.GetProject org.Slug s = some project ∧
        v = Val.projectPtr project)
      (slugs.filter fun s => (c.sentryAPI.GetProject org.Slug s).isSome)
      (slugs.filterMap fun s => (c.sentryAPI.GetProject org.Slug s).map Val.projectPtr) := by
  induction slugs with
  | nil => exact List.Forall₂.nil
  | cons s rest ih =>
    cases hP : c.sentryAPI.GetProject org.Slug s with
    | none => simpa [List.filter_cons, List.filterMap_cons, hP] using ih
    | some project =>
      simp only [List.filter_cons, List.filterMap_cons, hP, Option.isSome_some, if_true,
        Option.map_some']
      exact List.Forall₂.cons ⟨project, hP, rfl⟩ ih

theorem mapGet?_toJSONFields (m : Data) (k : String) :
    mapGet? (toJSONFields m) k = (mapGet? m k).map toJSON := by
  induction m with
  | nil => simp [toJSONFields, mapGet?]
  | cons hd tl ih =>
    obtain ⟨k0, v0⟩ := hd
    by_cases h : k0 = k <;> simp [toJSONFields, mapGet?, h, ih]

theorem build_some (c : SentryCollector) (store : Store) (now : Int) (data : Data)
    (store1 : Store) (h : buildSentryDataFromAPI c store now = Exec.ok (some data, store1)) :
    ∃ org, c.sentryAPI.GetOrg c.sentryOrgSlug = some org ∧ c.sentryProjectsSlug ≠ [] := by
  cases horg : c.sentryAPI.GetOrg c.sentryOrgSlug with
  | none => simp [buildSentryDataFromAPI, horg] at h
  | some org =>
    refine ⟨org, rfl, fun hsel => ?_⟩
    cases hp : c.sentryAPI.Projects c.sentryOrgSlug with
    | none => simp [buildSentryDataFromAPI, horg, hsel, hp] at h
    | some projects =>
      rw [build_listing c store now org projects horg hsel hp] at h
      cases h

theorem sumEvents_wrapped (events : List (List Val)) (xs : List ℚ)
    (h : List.Forall₂ IsPoint events xs) (acc : Int) (he : IsInt64 acc) :
    sumEvents events acc = Exec.ok (wrapInt64 (acc + (xs.map toInt64).sum)) := by
  induction h generalizing acc with
  | nil => simp [sumEvents, wrapInt64_of_isInt64 acc he]
  | cons hd _ ih =>
    obtain ⟨timestamp, rest, rfl⟩ := hd
    simp only [sumEvents, List.map_cons, List.sum_cons]
    rw [ih _ (wrapInt64_isInt64 _), wrapInt64_add, add_assoc]

theorem sumEvents_points (events : List (List Val)) (xs : List ℚ)
    (h : List.Forall₂ IsPoint events xs) (hfits : ∀ x ∈ xs, IsInt64 (truncate x))
    (hsum : IsInt64 (xs.map truncate).sum) :
    sumEvents events 0 = Exec.ok (xs.map truncate).sum := by
  have h0 : IsInt64 0 := by unfold IsInt64 minInt64 maxInt64; omega
  rw [sumEvents_wrapped events xs h 0 h0, sum_toInt64_of_fits xs hfits, zero_add,
    wrapInt64_of_isInt64 _ hsum]

theorem toInt64_le_unixNow (x : ℚ) (now : Int) (h : x ≤ (now : ℚ)) :
    toInt64 x ≤ unixNow now := by
  by_cases hf : IsInt64 (truncate x)
  · rw [toInt64_of_fits x hf]
    exact le_max_of_le_right (le_min (truncate_le_of_le x now h) hf.2)
  · rw [toInt64_of_overflow x hf]
    exact minInt64_le_unixNow now

/-- Claim C11 fails on the code: for an issue whose id is a string, whose
release lookup succeeds and whose count is usable, but whose logger, level,
status or platform is not a string or whose isUnhandled, firstSeen or lastSeen
key is missing, the body of the gauge loop executes `return`: `Collect` ends
there, before the gauge vector is flushed and before the event and rate limit
sections. -/
theorem shape_mismatch_returns (lib : GoLib) (c : SentryCollector) (projectSlug env : String)
    (sets : List Sample) (issueMap : Data) (id release : String) (count : ℚ)
    (hid : mapIndex issueMap "id" = Val.str id)
    (hrelease : c.sentryAPI.IssueRelease id env = some release)
    (hcount : CountIs lib issueMap count)
    (hshape : ShapeMismatch issueMap) :
    gaugeIssue lib c projectSlug env sets (Val.obj issueMap) = Exec.ret := by
  simp only [gaugeIssue, asMap, asString, bind_ok, hid, hrelease,
    gaugeCount_of_countIs lib issueMap count hcount, stringOrReturn_str]
  rcases stringOrReturn_cases (mapIndex issueMap "logger") with h1 | ⟨s1, e1, h1⟩
  · rw [h1]; rfl
  rw [h1, bind_ok]
  rcases stringOrReturn_cases (mapIndex issueMap "level") with h2 | ⟨s2, e2, h2⟩
  · rw [h2]; rfl
  rw [h2, bind_ok]
  rcases stringOrReturn_cases (mapIndex issueMap "status") with h3 | ⟨s3, e3, h3⟩
  · rw [h3]; rfl
  rw [h3, bind_ok]
  rcases stringOrReturn_cases (mapIndex issueMap "platform") with h4 | ⟨s4, e4, h4⟩
  · rw [h4]; rfl
  rw [h4, bind_ok]
  rcases keyOrReturn_cases issueMap "isUnhandled" with h5 | ⟨v5, e5, h5⟩
  · rw [h5]; rfl
  rw [h5, bind_ok]
  rcases keyOrReturn_cases issueMap "firstSeen" with h6 | ⟨v6, e6, h6⟩
  · rw [h6]; rfl
  rw [h6, bind_ok]
  rcases keyOrReturn_cases issueMap "lastSeen" with h7 | ⟨v7, e7, h7⟩
  · rw [h7]; rfl
  exfalso
  rcases hshape with h | h | h | h | h | h | h
  · exact h s1 e1
  · exact h s2 e2
  · exact h s3 e3
  · exact h s4 e4
  · rw [e5] at h; cases h
  · rw [e6] at h; cases h
  · rw [e7] at h; cases h

/-- Claim C11 at a concrete input: a well-formed issue followed by one without
logger.  The cache-hit pass sends the histogram observation only, without a
panic; with the well-formed issue alone it sends the gauge sample, the three
counters and the rate limit as well. -/
theorem shape_mismatch_returns_witness :
    gaugeIssue sampleLib mismatchCollector "p" "prod"
      [Sample.gauge ["good", "app", "error", "unresolved", "go", "p", "prod", "v1",
          "false", "2024-01-01T00:00:00Z", "2024-01-02T00:00:00Z"] 3] mismatchIssue
      = Exec.ret ∧
    (Collect sampleLib mismatchCollector
      (Collect sampleLib mismatchCollector emptyStore 0).store 1).sent =
      [Sample.histogram "p" "prod" 4] ∧
    (Collect sampleLib mismatchCollector
      (Collect sampleLib mismatchCollector emptyStore 0).store 1).panicked = false ∧
    (Collect sampleLib wellFormedCollector
      (Collect sampleLib wellFormedCollector emptyStore 0).store 1).sent =
      [Sample.histogram "p" "prod" 3,
        Sample.gauge ["good", "app", "error", "unresolved", "go", "p", "prod", "v1",
          "false", "2024-01-01T00:00:00Z", "2024-01-02T00:00:00Z"] 3,
        Sample.counter "p" "received" 2, Sample.counter "p" "rejected" 2,
        Sample.counter "p" "blacklisted" 2, Sample.rateLimit "p" 0] :=
  ⟨shape_mismatch_returns sampleLib mismatchCollector "p" "prod" _ _ "bad" "v1" 1 rfl rfl
      (Or.inl rfl) (Or.inl (fun s h => by simp [mapIndex, mapGet?] at h)),
    rfl, rfl, rfl⟩

/-- Claim C12.  Let a window hold an issue list containing an issue, with a
string id, whose count is neither a number nor a string that `ParseFloat`
reads.  Then the histogram block and the gauge block of that window give what
they give on the list without that issue, from the same state of the vectors
(the same observation, the same gauge samples, a crash only if the rest
crashes), and the issue itself adds no gauge sample. -/
theorem unusable_count_skipped (lib : GoLib) (c : SentryCollector)
    (projectSlug env age : String) (envWith envWithout issueMap : Data) (id : String)
    (l1 l2 : List Val) (obs sets : List Sample)
    (hid : mapIndex issueMap "id" = Val.str id)
    (hcount : UnusableCount lib issueMap)
    (hwith : mapGet? envWith age = some (Val.arr (l1 ++ Val.obj issueMap :: l2)))
    (hwithout : mapGet? envWithout age = some (Val.arr (l1 ++ l2))) :
    observeWindow lib projectSlug env envWith age obs =
      observeWindow lib projectSlug env envWithout age obs ∧
    gaugeWindow lib c projectSlug env envWith sets age =
      gaugeWindow lib c projectSlug env envWithout sets age ∧
    gaugeIssue lib c projectSlug env sets (Val.obj issueMap) = Exec.ok sets := by
  refine ⟨?_, ?_, gaugeIssue_unusable lib c projectSlug env sets issueMap id hid hcount⟩
  · simp only [observeWindow, mapIndex, hwith, hwithout, Option.getD_some, asSlice, bind_ok,
      sumCounts_skip lib issueMap hcount]
  · simp only [gaugeWindow, hwith, hwithout, asSlice, bind_ok]
    exact gaugeIssues_skip lib c projectSlug env _
      (fun s => gaugeIssue_unusable lib c projectSlug env s issueMap id hid hcount) l1 l2 sets

/-- Claim C12 at a concrete input: counts 1, `true`, 3 observe 4 and give the
gauge samples of the first and the third issue. -/
theorem unusable_count_skipped_witness :
    observeWindow sampleLib "p" "prod"
        [("1h", Val.arr [sampleIssue "a" (Val.num 1), sampleIssue "x" (Val.bool true),
          sampleIssue "c" (Val.num 3)])] "1h" [] =
      observeWindow sampleLib "p" "prod"
        [("1h", Val.arr [sampleIssue "a" (Val.num 1), sampleIssue "c" (Val.num 3)])] "1h" [] ∧
    observeWindow sampleLib "p" "prod"
        [("1h", Val.arr [sampleIssue "a" (Val.num 1), sampleIssue "x" (Val.bool true),
          sampleIssue "c" (Val.num 3)])] "1h" [] =
      Exec.ok [Sample.histogram "p" "prod" 4] ∧
    gaugeWindow sampleLib (sampleCollector (sampleAPI ["prod"]) ["p"]) "p" "prod"
        [("1h", Val.arr [sampleIssue "a" (Val.num 1), sampleIssue "x" (Val.bool true),
          sampleIssue "c" (Val.num 3)])] [] "1h" =
      gaugeWindow sampleLib (sampleCollector (sampleAPI ["prod"]) ["p"]) "p" "prod"
        [("1h", Val.arr [sampleIssue "a" (Val.num 1), sampleIssue "c" (Val.num 3)])] [] "1h" ∧
    gaugeWindow sampleLib (sampleCollector (sampleAPI ["prod"]) ["p"]) "p" "prod"
        [("1h", Val.arr [sampleIssue "a" (Val.num 1), sampleIssue "x" (Val.bool true),
          sampleIssue "c" (Val.num 3)])] [] "1h" =
      Exec.ok [Sample.gauge ["a", "app", "error", "unresolved", "go", "p", "prod", "v1",
          "false", "2024-01-01T00:00:00Z", "2024-01-02T00:00:00Z"] 1,
        Sample.gauge ["c", "app", "error", "unresolved", "go", "p", "prod", "v1",
          "false", "2024-01-01T00:00:00Z", "2024-01-02T00:00:00Z"] 3] :=
  have h := unusable_count_skipped sampleLib (sampleCollector (sampleAPI ["prod"]) ["p"])
    "p" "prod" "1h"
    [("1h", Val.arr [sampleIssue "a" (Val.num 1), sampleIssue "x" (Val.bool true),
      sampleIssue "c" (Val.num 3)])]
    [("1h", Val.arr [sampleIssue "a" (Val.num 1), sampleIssue "c" (Val.num 3)])]
    [("id", Val.str "x"), ("count", Val.bool true), ("logger", Val.str "app"),
      ("level", Val.str "error"), ("status", Val.str "unresolved"), ("platform", Val.str "go"),
      ("isUnhandled", Val.bool false), ("firstSeen", Val.str "2024-01-01T00:00:00Z"),
      ("lastSeen", Val.str "2024-01-02T00:00:00Z")]
    "x" [sampleIssue "a" (Val.num 1)] [sampleIssue "c" (Val.num 3)] [] [] rfl
    ⟨fun _ h => by simp [mapIndex, mapGet?] at h, fun _ h => by simp [mapIndex, mapGet?] at h⟩
    rfl rfl
  ⟨h.1, rfl, h.2.1, rfl⟩

/-- Claim C13.  For a cache file whose `expire_at` is in the past, a store on
which `os.Create` succeeds and a build that returns a snapshot,
`buildSentryData` returns that build, the cache file afterwards holds the
encoding of the returned snapshot, whose `expire_at` is the current time plus
the TTL of 120 seconds, and that is strictly later than the old `expire_at`. -/
theorem rebuild_on_expiry (c : SentryCollector) (store store1 : Store) (now : Int)
    (cache data : Data) (x : ℚ)
    (hfile : store.file = CacheFile.json cache)
    (hexpire : mapIndex cache "expire_at" = Val.num x)
    (hpast : x ≤ (now : ℚ))
    (hwritable : store.writable = true)
    (hbuild : buildSentryDataFromAPI c store now = Exec.ok (some data, store1)) :
    buildSentryData c store now = Exec.ok (some data, store1) ∧
    store1.file = CacheFile.json (toJSONFields data) ∧
    mapIndex data "expire_at" = Val.int64 (now + DefaultCacheExpireTimestamp) ∧
    mapIndex (toJSONFields data) "expire_at" =
      Val.num ((now + DefaultCacheExpireTimestamp : Int) : ℚ) ∧
    DefaultCacheExpireTimestamp = 120 ∧
    x < ((now + DefaultCacheExpireTimestamp : Int) : ℚ) := by
  have hmiss : getCached store.file now = (none, false) := by
    simp [hfile, getCached, hexpire, toInt64_le_unixNow x now hpast]
  obtain ⟨org, horg, hsel⟩ := build_some c store now data store1 hbuild
  have hb := hbuild
  rw [build_selector c store now org horg hsel] at hb
  simp only [Exec.ok.injEq, Prod.mk.injEq, Option.some.injEq] at hb
  have hd : data = mapSet ((selectorState c org c.sentryProjectsSlug [] initialState).toData org)
      "expire_at" (Val.int64 (now + DefaultCacheExpireTimestamp)) := by
    rw [← hb.1, writeCache_data]
  have hs : store1.file = CacheFile.json (toJSONFields data) := by
    rw [← hb.2, hd]
    simp [writeCache, hwritable]
  refine ⟨?_, hs, ?_, ?_, rfl, ?_⟩
  · rw [buildSentryData_miss c store now hmiss]
    exact hbuild
  · rw [hd, mapIndex_mapSet_self]
  · rw [hd]
    simp [mapIndex, mapGet?_toJSONFields, mapGet?_mapSet, toJSON]
  · have : (now : ℚ) < ((now + DefaultCacheExpireTimestamp : Int) : ℚ) := by
      simp [DefaultCacheExpireTimestamp]
    exact lt_of_le_of_lt hpast this

/-- Claim C13 at a concrete input: an entry expired at second 50, read at second
100, is replaced by one that expires at second 220. -/
theorem rebuild_on_expiry_witness :
    ∃ data store1,
      buildSentryData (sampleCollector (sampleAPI ["prod"]) ["p"]) expiredStore 100 =
        Exec.ok (some data, store1) ∧
      store1.file = CacheFile.json (toJSONFields data) ∧
      mapIndex (toJSONFields data) "expire_at" = Val.num ((220 : Int) : ℚ) ∧
      (50 : ℚ) < ((220 : Int) : ℚ) :=
  have h := rebuild_on_expiry (sampleCollector (sampleAPI ["prod"]) ["p"]) expiredStore _
    100 [("expire_at", Val.num 50)] _ 50 rfl rfl (by norm_num) rfl rfl
  ⟨_, _, h.1, h.2.1, h.2.2.2.1, h.2.2.2.2.2⟩

/-- Claim C14 fails on the code: for a cache file whose `expire_at` has
passed, `getCached` returns a miss, and when the build that follows fails at
the organization lookup the store is what it was: the stale file is still
there (`getCached` logs the deletion and does not perform it). -/
theorem expired_entry_stays (c : SentryCollector) (store : Store) (now : Int) (cache : Data)
    (x : ℚ)
    (hfile : store.file = CacheFile.json cache)
    (hexpire : mapIndex cache "expire_at" = Val.num x)
    (hpast : x ≤ (now : ℚ))
    (horg : c.sentryAPI.GetOrg c.sentryOrgSlug = none) :
    getCached store.file now = (none, false) ∧
    buildSentryData c store now = Exec.ok (none, store) := by
  have hmiss : getCached store.file now = (none, false) := by
    simp [hfile, getCached, hexpire, toInt64_le_unixNow x now hpast]
  refine ⟨hmiss, ?_⟩
  rw [buildSentryData_miss c store now hmiss]
  simp [buildSentryDataFromAPI, horg]

/-- Claim C14 at a concrete input: the entry expired at second 50 is still in
the store after the pass of second 100. -/
theorem expired_entry_stays_witness :
    getCached expiredStore.file 100 = (none, false) ∧
    buildSentryData (sampleCollector orgFailureAPI ["p"]) expiredStore 100 =
      Exec.ok (none, expiredStore) ∧
    expiredStore.file = CacheFile.json [("expire_at", Val.num 50)] :=
  ⟨(expired_entry_stays (sampleCollector orgFailureAPI ["p"]) expiredStore 100
      [("expire_at", Val.num 50)] 50 rfl rfl (by norm_num) rfl).1,
    (expired_entry_stays (sampleCollector orgFailureAPI ["p"]) expiredStore 100
      [("expire_at", Val.num 50)] 50 rfl rfl (by norm_num) rfl).2, rfl⟩

/-- Claim C15.  If the organization lookup fails, `buildSentryDataFromAPI`
returns nil, leaves the store unchanged and has made the organization call
only; if the selector is empty and the project listing fails, it returns nil,
leaves the store unchanged and has made the organization call and the listing
call only. -/
theorem fatal_build_failure (c : SentryCollector) (store : Store) (now : Int) :
    (c.sentryAPI.GetOrg c.sentryOrgSlug = none →
      buildSentryDataFromAPI c store now = Exec.ok (none, store) ∧
      buildCalls c = [Call.getOrg c.sentryOrgSlug]) ∧
    (∀ org, c.sentryAPI.GetOrg c.sentryOrgSlug = some org → c.sentryProjectsSlug = [] →
      c.sentryAPI.Projects c.sentryOrgSlug = none →
      buildSentryDataFromAPI c store now = Exec.ok (none, store) ∧
      buildCalls c = [Call.getOrg c.sentryOrgSlug, Call.projects c.sentryOrgSlug]) := by
  constructor
  · intro h
    simp [buildSentryDataFromAPI, buildCalls, h]
  · intro org horg hsel hp
    simp [buildSentryDataFromAPI, buildCalls, horg, hsel, hp]

/-- Claim C15 at concrete inputs, with the calls of a build that succeeds for
comparison. -/
theorem fatal_build_failure_witness :
    (buildSentryDataFromAPI (sampleCollector orgFailureAPI ["p"]) expiredStore 100 =
        Exec.ok (none, expiredStore) ∧
      buildCalls (sampleCollector orgFailureAPI ["p"]) = [Call.getOrg "acme"]) ∧
    (buildSentryDataFromAPI (sampleCollector listingFailureAPI []) expiredStore 100 =
        Exec.ok (none, expiredStore) ∧
      buildCalls (sampleCollector listingFailureAPI []) =
        [Call.getOrg "acme", Call.projects "acme"]) ∧
    buildCalls (sampleCollector (sampleAPI ["prod"]) ["p"]) =
      [Call.getOrg "acme", Call.getProject "acme" "p",
        Call.environments "acme" (sampleProject "p"),
        Call.issues "acme" (sampleProject "p") "prod" "1h",
        Call.issues "acme" (sampleProject "p") "prod" "24h"] :=
  ⟨(fatal_build_failure (sampleCollector orgFailureAPI ["p"]) expiredStore 100).1 rfl,
    (fatal_build_failure (sampleCollector listingFailureAPI []) expiredStore 100).2
      sampleOrg rfl rfl rfl, rfl⟩

/-- Claim C16.  With a non-empty selector and a successful organization lookup
`buildSentryDataFromAPI` returns a snapshot whose `projects_slug` is the list
of the configured slugs whose `GetProject` call succeeded, in configured order,
and whose `projects` holds, position by position, the project fetched for each
of them. -/
theorem named_projects_in_order (c : SentryCollector) (store : Store) (now : Int)
    (org : Organization)
    (horg : c.sentryAPI.GetOrg c.sentryOrgSlug = some org)
    (hsel : c.sentryProjectsSlug ≠ []) :
    ∃ data store1,
      buildSentryDataFromAPI c store now = Exec.ok (some data, store1) ∧
      metaGet data "projects_slug" = Exec.ok (Val.stringSlice
        (c.sentryProjectsSlug.filter fun s => (c.sentryAPI.GetProject org.Slug s).isSome)) ∧
      metaGet data "projects" = Exec.ok (Val.arr
        (c.sentryProjectsSlug.filterMap fun s =>
          (c.sentryAPI.GetProject org.Slug s).map Val.projectPtr)) ∧
      List.Forall₂ (fun s v => ∃ project, c.sentryAPI.GetProject org.Slug s = some project ∧
          v = Val.projectPtr project)
        (c.sentryProjectsSlug.filter fun s => (c.sentryAPI.GetProject org.Slug s).isSome)
        (c.sentryProjectsSlug.filterMap fun s =>
          (c.sentryAPI.GetProject org.Slug s).map Val.projectPtr) := by
  refine ⟨_, _, build_selector c store now org horg hsel, ?_, ?_,
    resolved_pairs c org c.sentryProjectsSlug⟩
  · rw [writeCache_data, metaGet_mapSet_expire, metaGet_toData, selectorState_slugs]
    simp [mapIndex, mapGet?, initialState]
  · rw [writeCache_data, metaGet_mapSet_expire, metaGet_toData,
      selectorState_projects_eq c org _ [] initialState rfl]
    simp [mapIndex, mapGet?]

/-- Claim C16 at a concrete input: of p1, p2, p3 the lookup of p2 fails. -/
theorem named_projects_in_order_witness :
    ∃ data store1,
      buildSentryDataFromAPI (sampleCollector projectFailureAPI ["p1", "p2", "p3"])
        emptyStore 0 = Exec.ok (some data, store1) ∧
      metaGet data "projects_slug" = Exec.ok (Val.stringSlice ["p1", "p3"]) ∧
      metaGet data "projects" = Exec.ok (Val.arr
        [Val.projectPtr (sampleProject "p1"), Val.projectPtr (sampleProject "p3")]) :=
  match named_projects_in_order (sampleCollector projectFailureAPI ["p1", "p2", "p3"])
      emptyStore 0 sampleOrg rfl (List.cons_ne_nil _ _) with
  | ⟨data, store1, hb, hs, hp, _⟩ => ⟨data, store1, hb, hs, hp⟩

/-- Claim C19.  On a decoded key list `RateLimit` returns 0 with no error when
the list is empty or the first key has no rateLimit record; when the record is
an object with numeric window and count it returns count / window if the
window is not 0, and 0 if the window is 0. -/
theorem rate_limit_derivation (s : SentryAPI) (orgSlug projectSlug : String)
    (keys : List Data) (hkeys : s.keysBody orgSlug projectSlug = some keys) :
    (keys = [] → s.RateLimit orgSlug projectSlug = Exec.ok (some 0)) ∧
    (∀ first rest, keys = first :: rest → mapIndex first "rateLimit" = Val.null →
      s.RateLimit orgSlug projectSlug = Exec.ok (some 0)) ∧
    (∀ first rest rateLimit window count, keys = first :: rest →
      mapIndex first "rateLimit" = Val.obj rateLimit →
      mapIndex rateLimit "window" = Val.num window →
      mapIndex rateLimit "count" = Val.num count →
      (window ≠ 0 → s.RateLimit orgSlug projectSlug = Exec.ok (some (count / window))) ∧
      (window = 0 → s.RateLimit orgSlug projectSlug = Exec.ok (some 0))) := by
  refine ⟨fun h => ?_, fun first rest h hn => ?_, fun first rest rateLimit window count h hr hw hc =>
    ⟨fun hne => ?_, fun hz => ?_⟩⟩
  · simp [SentryAPI.RateLimit, hkeys, h]
  · simp [SentryAPI.RateLimit, hkeys, h, hn]
  · simp [SentryAPI.RateLimit, hkeys, h, hr, hw, hc, hne]
  · simp [SentryAPI.RateLimit, hkeys, h, hr, hw, hc, hz]

/-- Claim C19 at concrete inputs: 300 events per 60 seconds is 5 per second; an
empty key list gives 0. -/
theorem rate_limit_derivation_witness :
    rateLimitAPI.RateLimit "acme" "p" = Exec.ok (some (300 / 60)) ∧
    (300 / 60 : ℚ) = 5 ∧
    (sampleAPI ["prod"]).RateLimit "acme" "p" = Exec.ok (some 0) :=
  ⟨((rate_limit_derivation rateLimitAPI "acme" "p" _ rfl).2.2 _ [] _ 60 300 rfl rfl rfl
      rfl).1 (by norm_num),
    by norm_num,
    (rate_limit_derivation (sampleAPI ["prod"]) "acme" "p" [] rfl).1 rfl⟩

/-- Claim C20, as amended.  When the three statistics requests succeed and
every point decoded is a `[timestamp, count]` pair with a numeric count whose
integer part fits `int64`, the sum of the integer parts of each stat fitting
`int64` too, `ProjectStats` returns the map with the keys received, rejected and
blacklisted, each mapped to the sum of the counts of its points, each count
taken as an integer; when one of the three requests fails it returns an error
and no map. -/
theorem project_stats_sums (s : SentryAPI) (orgSlug projectSlug : String) :
    (∀ received rejected blacklisted xr xj xb,
      s.statsBody orgSlug projectSlug "received" = some received →
      s.statsBody orgSlug projectSlug "rejected" = some rejected →
      s.statsBody orgSlug projectSlug "blacklisted" = some blacklisted →
      List.Forall₂ IsPoint received xr → List.Forall₂ IsPoint rejected xj →
      List.Forall₂ IsPoint blacklisted xb →
      (∀ x ∈ xr ++ xj ++ xb, IsInt64 (truncate x)) →
      IsInt64 (xr.map truncate).sum → IsInt64 (xj.map truncate).sum →
      IsInt64 (xb.map truncate).sum →
      s.ProjectStats orgSlug projectSlug = Exec.ok (some
        [("received", (xr.map truncate).sum), ("rejected", (xj.map truncate).sum),
          ("blacklisted", (xb.map truncate).sum)])) ∧
    (s.statsBody orgSlug projectSlug "received" = none ∨
      s.statsBody orgSlug projectSlug "rejected" = none ∨
      s.statsBody orgSlug projectSlug "blacklisted" = none →
      s.ProjectStats orgSlug projectSlug = Exec.ok none) := by
  constructor
  · intro received rejected blacklisted xr xj xb hr hj hb pr pj pb hfits sr sj sb
    have fr : ∀ x ∈ xr, IsInt64 (truncate x) := fun x hx =>
      hfits x (List.mem_append_left _ (List.mem_append_left _ hx))
    have fj : ∀ x ∈ xj, IsInt64 (truncate x) := fun x hx =>
      hfits x (List.mem_append_left _ (List.mem_append_right _ hx))
    have fb : ∀ x ∈ xb, IsInt64 (truncate x) := fun x hx =>
      hfits x (List.mem_append_right _ hx)
    simp [SentryAPI.ProjectStats, fetchStats, hr, hj, hb, mapSet, countStats,
      sumEvents_points _ _ pr fr sr, sumEvents_points _ _ pj fj sj,
      sumEvents_points _ _ pb fb sb]
  · intro h
    cases hr : s.statsBody orgSlug projectSlug "received" with
    | none => simp [SentryAPI.ProjectStats, fetchStats, hr]
    | some r =>
      cases hj : s.statsBody orgSlug projectSlug "rejected" with
      | none => simp [SentryAPI.ProjectStats, fetchStats, hr, hj]
      | some j =>
        cases hb : s.statsBody orgSlug projectSlug "blacklisted" with
        | none => simp [SentryAPI.ProjectStats, fetchStats, hr, hj, hb]
        | some b => simp [hr, hj, hb] at h

/-- Claim C20, as stated, fails: when each stat holds the single point of count
10000000000000000000, a whole number, `ProjectStats` maps each stat to
-9223372036854775808, not to the sum of its counts. -/
theorem project_stats_overflow_counterexample :
    List.Forall₂ IsPoint [[Val.num 1700000000, Val.num (hugeCount : ℚ)]] [(hugeCount : ℚ)] ∧
    ([(hugeCount : ℚ)].map truncate).sum = 10000000000000000000 ∧
    overflowStatsAPI.ProjectStats "acme" "p" =
      Exec.ok (some [("received", -9223372036854775808), ("rejected", -9223372036854775808),
        ("blacklisted", -9223372036854775808)]) :=
  ⟨List.Forall₂.cons ⟨_, _, rfl⟩ List.Forall₂.nil, rfl, rfl⟩

/-- Claim C20, amended, at concrete inputs: two points of counts 2 and 3 per
stat sum to 5, which the pass that reads the snapshot from the cache adds to the
three counters; when the request of rejected fails there is no map. -/
theorem project_stats_sums_witness :
    statsAPI.ProjectStats "acme" "p" =
      Exec.ok (some [("received", 5), ("rejected", 5), ("blacklisted", 5)]) ∧
    ({ statsAPI with statsBody := fun _ _ stat =>
        if stat = "rejected" then none else statsAPI.statsBody "acme" "p" stat } :
      SentryAPI).ProjectStats "acme" "p" = Exec.ok none ∧
    (Collect sampleLib (sampleCollector statsAPI ["p"])
      (Collect sampleLib (sampleCollector statsAPI ["p"]) emptyStore 0).store 1).sent =
      [Sample.histogram "p" "prod" 3, Sample.histogram "p" "prod" 3,
        Sample.gauge ["p-prod-1h", "app", "error", "unresolved", "go", "p", "prod", "v1",
          "false", "2024-01-01T00:00:00Z", "2024-01-02T00:00:00Z"] 3,
        Sample.gauge ["p-prod-24h", "app", "error", "unresolved", "go", "p", "prod", "v1",
          "false", "2024-01-01T00:00:00Z", "2024-01-02T00:00:00Z"] 3,
        Sample.counter "p" "received" 5, Sample.counter "p" "rejected" 5,
        Sample.counter "p" "blacklisted" 5, Sample.rateLimit "p" 0] :=
  ⟨(project_stats_sums statsAPI "acme" "p").1 _ _ _ [2, 3] [2, 3] [2, 3] rfl rfl rfl
      (List.Forall₂.cons ⟨_, _, rfl⟩ (List.Forall₂.cons ⟨_, _, rfl⟩ List.Forall₂.nil))
      (List.Forall₂.cons ⟨_, _, rfl⟩ (List.Forall₂.cons ⟨_, _, rfl⟩ List.Forall₂.nil))
      (List.Forall₂.cons ⟨_, _, rfl⟩ (List.Forall₂.cons ⟨_, _, rfl⟩ List.Forall₂.nil))
      (by decide) (by decide) (by decide) (by decide),
    (project_stats_sums _ "acme" "p").2 (Or.inr (Or.inl rfl)), rfl⟩

/-! ## Truncated counts against the counts themselves -/

end SentryExporter
